import Mathlib

/-!
# indirect_value: a deep-copying owning handle

A shallow embedding of `indirect_value.h` (namespace `isocpp_p1950`).

* Pointee objects live in a heap of cells addressed by natural numbers; a `T*`
  is an `Option Addr` (`none` is `nullptr`).
* Handle objects live in a store indexed by object identity, so that an
  operation can be applied to two references naming the same object
  (`h = h`, `swap(h, h)`), exactly as the member functions read and write
  through `this` and `i`.
* Copy and destroy policies are parameters: a state type (`C`, `D`) together
  with the effect of the call operator on the heap.
* Every invocation of a policy by a handle operation is appended to a trace.
-/

namespace isocpp_p1950

/-- Address of a pointee object. -/
abbrev Addr := Nat

/-- The heap of pointee objects: cell `a` holds `some v` while an object with
value `v` lives at address `a`, and `none` once it has been deleted.  Addresses
at or beyond the length have never been handed out by `new`. -/
abbrev Heap (T : Type) := List (Option T)

/-- Content of the cell at address `a` (`none`: no live object there). -/
def Heap.read {T : Type} (H : Heap T) (a : Addr) : Option T := H.getD a none

/-- The expression `new T(v)`: the object is placed at the next unused address. -/
def Heap.alloc {T : Type} (H : Heap T) (v : T) : Addr × Heap T := (H.length, H ++ [some v])

/-- Store `v` through a `T&` bound to the object at address `a`. -/
def Heap.write {T : Type} (H : Heap T) (a : Addr) (v : T) : Heap T := H.set a (some v)

/-- The expression `delete p` for `p` pointing at address `a`. -/
def Heap.free {T : Type} (H : Heap T) (a : Addr) : Heap T := H.set a none

/-- Number of pointee objects alive in the heap. -/
def Heap.liveCount {T : Type} (H : Heap T) : Nat := (H.filter Option.isSome).length

/-- Policy invocations performed by handle operations. -/
inductive Event where
  | clone (a : Addr)
  | destroy (a : Addr)
  deriving DecidableEq, Repr

/-- The template parameters `C` and `D` as seen by the handle: the call operator
of the copy policy (`T* operator()(const T&)`; `none` when the call throws), the
call operator of the destroy policy, and the values `C{}` and `D{}`. -/
structure Policies (T C D : Type) where
  copy : C → Addr → Heap T → Option (Option Addr × Heap T)
  destroy : D → Addr → Heap T → Heap T
  defaultC : C
  defaultD : D

/-- The call operator `default_copy<T>::operator()`: `return new T(t);` where `t` is the object at
address `a`.  The pointee type is a value type whose copy constructor
reproduces the value.  Copying from an address without a live object has no
defined result and is reported as a failure. -/
def default_copy {T : Type} (a : Addr) (H : Heap T) : Option (Option Addr × Heap T) :=
  match H.read a with
  | some v => some (some (H.alloc v).1, (H.alloc v).2)
  | none => none

/-- The call operator `std::default_delete<T>::operator()`: `delete p;`. -/
def default_delete {T : Type} (a : Addr) (H : Heap T) : Heap T := H.free a

/-- The default template arguments `C = default_copy<T>` and
`D = std::default_delete<T>`, both stateless. -/
def defaultPolicies (T : Type) : Policies T Unit Unit where
  copy := fun _ => default_copy
  destroy := fun _ => default_delete
  defaultC := ()
  defaultD := ()

/-- A `std::unique_ptr<T, D>`: the stored pointer and the stored deleter. -/
structure unique_ptr (D : Type) where
  ptr : Option Addr
  del : D
  deriving DecidableEq, Repr

/-- The policy storage `indirect_value_base<T, C>`: the stored copy policy. -/
structure indirect_value_base (C : Type) where
  c_ : C
  deriving DecidableEq, Repr

/-- Member `indirect_value_base::get()`. -/
def indirect_value_base.get {C : Type} (b : indirect_value_base C) : C := b.c_

/-- Constructor `indirect_value_base(C c) : c_(std::move(c))` of the primary
template. -/
def indirect_value_base.ctor {C : Type} (c : C) : indirect_value_base C := ⟨c⟩

/-- Member `const C& get() const` of the primary template: `return c_;`. -/
def indirect_value_base.get_const {C : Type} (b : indirect_value_base C) : C := b.c_

/-- Assignment of `c` through the reference returned by the non-const `get()`
of the primary template, which refers to the member `c_`. -/
def indirect_value_base.assign_through_get {C : Type} (b : indirect_value_base C) (c : C) :
    indirect_value_base C :=
  { b with c_ := c }

/-- The specialisation `indirect_value_base<T, C, true> : private C`, chosen for
an empty, non-final policy type: the object has no member, its only content is
its base-class subobject of type `C`. -/
structure indirect_value_base_ebo (C : Type) where
  toC : C
  deriving DecidableEq, Repr

/-- Constructor `indirect_value_base(C c) : C(std::move(c))` of the
specialisation. -/
def indirect_value_base_ebo.ctor {C : Type} (c : C) : indirect_value_base_ebo C := ⟨c⟩

/-- Member `C& get()` of the specialisation: `return *this;`, the base-class
subobject. -/
def indirect_value_base_ebo.get {C : Type} (b : indirect_value_base_ebo C) : C := b.toC

/-- Member `const C& get() const` of the specialisation: `return *this;`. -/
def indirect_value_base_ebo.get_const {C : Type} (b : indirect_value_base_ebo C) : C := b.toC

/-- Assignment of `c` through the reference returned by the non-const `get()`
of the specialisation, which refers to the base-class subobject. -/
def indirect_value_base_ebo.assign_through_get {C : Type} (b : indirect_value_base_ebo C)
    (c : C) : indirect_value_base_ebo C :=
  { b with toC := c }

/-- An `indirect_value<T, C, D>` object: its base subobject and its member `ptr_`. -/
structure indirect_value (C D : Type) where
  base : indirect_value_base C
  ptr_ : unique_ptr D
  deriving DecidableEq, Repr

/-- Member `indirect_value::get_c()`. -/
def indirect_value.get_c {C D : Type} (h : indirect_value C D) : C := h.base.get

/-- Conversion `indirect_value::operator bool`: `ptr_ != nullptr`. -/
def indirect_value.operator_bool {C D : Type} (h : indirect_value C D) : Bool := h.ptr_.ptr.isSome

/-- Member `indirect_value::operator->`: the stored pointer. -/
def indirect_value.operator_arrow {C D : Type} (h : indirect_value C D) : Option Addr := h.ptr_.ptr

/-- Program state: the heap of pointees, the storage of every handle object
(indexed by object identity; storage of an object that has not been
constructed holds whatever was there before), and the trace of policy calls. -/
structure State (T C D : Type) where
  heap : Heap T
  objs : Nat → indirect_value C D
  trace : List Event

/-- Outcome of an operation that may throw; the state reached is kept in both cases. -/
inductive Result (S : Type) where
  | returned (s : S)
  | threw (s : S)

/-- State carried by an outcome. -/
def Result.state {S : Type} : Result S → S
  | .returned s => s
  | .threw s => s

/-- Whether the operation returned normally. -/
def Result.isReturned {S : Type} : Result S → Bool
  | .returned _ => true
  | .threw _ => false

section ops

variable {T C D : Type}

/-- Overwrite the base subobject of object `i`. -/
def State.set_base (σ : State T C D) (i : Nat) (b : indirect_value_base C) : State T C D :=
  { σ with objs := Function.update σ.objs i { σ.objs i with base := b } }

/-- Overwrite the stored pointer of `ptr_` of object `i`. -/
def State.set_ptr (σ : State T C D) (i : Nat) (p : Option Addr) : State T C D :=
  { σ with objs := Function.update σ.objs i { σ.objs i with ptr_ := { (σ.objs i).ptr_ with ptr := p } } }

/-- Overwrite the stored deleter of `ptr_` of object `i`. -/
def State.set_del (σ : State T C D) (i : Nat) (d : D) : State T C D :=
  { σ with objs := Function.update σ.objs i { σ.objs i with ptr_ := { (σ.objs i).ptr_ with del := d } } }

/-- Call the destroy policy `d` on the pointer to address `a`. -/
def State.call_destroy (P : Policies T C D) (σ : State T C D) (d : D) (a : Addr) : State T C D :=
  { σ with heap := P.destroy d a σ.heap, trace := σ.trace ++ [Event.destroy a] }

/-- Member `unique_ptr::reset(p)` on the member `ptr_` of object `i`: store `p`, then
call the deleter on the old pointer when that was not null. -/
def unique_ptr_reset (P : Policies T C D) (σ : State T C D) (i : Nat) (p : Option Addr) :
    State T C D :=
  match (σ.objs i).ptr_.ptr with
  | some old => (σ.set_ptr i p).call_destroy P ((σ.set_ptr i p).objs i).ptr_.del old
  | none => σ.set_ptr i p

/-- Move assignment `unique_ptr::operator=(unique_ptr&&)` on the member `ptr_` of object `i`
from a temporary `r`: `reset(r.release())`, then the deleter is assigned. -/
def unique_ptr_move_assign (P : Policies T C D) (σ : State T C D) (i : Nat) (r : unique_ptr D) :
    State T C D :=
  (unique_ptr_reset P σ i r.ptr).set_del i r.del

/-- The call `std::exchange(i.ptr_, nullptr)`: the old value is moved out into the
returned temporary, which leaves `i.ptr_` null; assigning `nullptr` then
resets an already null pointer. -/
def exchange_nullptr (P : Policies T C D) (σ : State T C D) (i : Nat) :
    unique_ptr D × State T C D :=
  ((σ.objs i).ptr_, unique_ptr_reset P (σ.set_ptr i none) i none)

/-- Constructor `indirect_value() = default;` constructing object `self`. -/
def ctor_default (P : Policies T C D) (σ : State T C D) (self : Nat) : State T C D :=
  { σ with objs := Function.update σ.objs self ⟨⟨P.defaultC⟩, ⟨none, P.defaultD⟩⟩ }

/-- Constructor `indirect_value(std::in_place_t, Ts&&... ts)` constructing object `self`;
`mk args` is the value built by `T(ts...)`, or `none` when that constructor
throws. -/
def ctor_in_place {A : Type} (P : Policies T C D) (mk : A → Option T) (σ : State T C D)
    (self : Nat) (args : A) : Result (State T C D) :=
  let σ1 := ctor_default P σ self
  match mk args with
  | none => .threw σ1
  | some v =>
    .returned (unique_ptr_move_assign P { σ1 with heap := (σ1.heap.alloc v).2 } self
      ⟨some (σ1.heap.alloc v).1, P.defaultD⟩)

/-- Constructor `indirect_value(T* t, C c = C{}, D d = D{})` constructing object `self`. -/
def ctor_ptr (σ : State T C D) (self : Nat) (t : Option Addr) (c : C) (d : D) : State T C D :=
  { σ with objs := Function.update σ.objs self ⟨⟨c⟩, ⟨t, d⟩⟩ }

/-- Call the copy policy stored in object `self` on the pointee at address `a`. -/
def call_copy (P : Policies T C D) (σ : State T C D) (self : Nat) (a : Addr) :
    Option (Option Addr × State T C D) :=
  match P.copy (σ.objs self).get_c a σ.heap with
  | some (p, H) => some (p, { σ with heap := H, trace := σ.trace ++ [Event.clone a] })
  | none => none

/-- State after a call of the copy policy on address `a` that threw. -/
def State.after_throwing_clone (σ : State T C D) (a : Addr) : State T C D :=
  { σ with trace := σ.trace ++ [Event.clone a] }

/-- Constructor `indirect_value(const indirect_value& i) : base(get_c())` constructing
object `self`.  The base is initialised from `get_c()` of the object under
construction, that is from the content of its own storage; `ptr_` is
default-initialised; the body then clones the pointee of `i` with the policy
of `self`. -/
def ctor_copy (P : Policies T C D) (σ : State T C D) (self i : Nat) : Result (State T C D) :=
  let σ1 : State T C D :=
    { σ with objs := Function.update σ.objs self ⟨⟨(σ.objs self).get_c⟩, ⟨none, P.defaultD⟩⟩ }
  match (σ1.objs i).ptr_.ptr with
  | some a =>
    match call_copy P σ1 self a with
    | some (p, σ2) => .returned (unique_ptr_move_assign P σ2 self ⟨p, P.defaultD⟩)
    | none => .threw (σ1.after_throwing_clone a)
  | none => .returned σ1

/-- The member initialiser `ptr_(std::exchange(i.ptr_, nullptr))` of object
`self`: the value returned by `std::exchange` is constructed directly in
`ptr_`, so the old value of `i.ptr_` is first moved into the `ptr_` of `self`,
which leaves `i.ptr_` null, and the assignment of `nullptr` then resets
`i.ptr_`.  When `self` and `i` are the same object all of this acts on one
`ptr_`, which ends null without a call of the deleter. -/
def exchange_nullptr_into (P : Policies T C D) (σ : State T C D) (self i : Nat) : State T C D :=
  let σ1 : State T C D :=
    { σ with objs := Function.update σ.objs self { σ.objs self with ptr_ := (σ.objs i).ptr_ } }
  unique_ptr_reset P (σ1.set_ptr i none) i none

/-- Constructor `indirect_value(indirect_value&& i) : base(std::move(i)),
ptr_(std::exchange(i.ptr_, nullptr))` constructing object `self`.  Moving a
policy object leaves the value of the source as it was. -/
def ctor_move (P : Policies T C D) (σ : State T C D) (self i : Nat) : State T C D :=
  exchange_nullptr_into P (σ.set_base self (σ.objs i).base) self i

/-- Assignment `indirect_value& operator=(const indirect_value& i)` on object `self`:
the policy is assigned first; when `i` is engaged the pointee of `i` is cloned
with the policy of `self` and either move-assigned into an empty `ptr_`
together with `D{}`, or installed by `reset`; when `i` is empty nothing more
is done. -/
def copy_assign (P : Policies T C D) (σ : State T C D) (self i : Nat) : Result (State T C D) :=
  let σ1 := σ.set_base self (σ.objs i).base
  match (σ1.objs i).ptr_.ptr with
  | some a =>
    match (σ1.objs self).ptr_.ptr with
    | none =>
      match call_copy P σ1 self a with
      | some (p, σ2) => .returned (unique_ptr_move_assign P σ2 self ⟨p, P.defaultD⟩)
      | none => .threw (σ1.after_throwing_clone a)
    | some _ =>
      match call_copy P σ1 self a with
      | some (p, σ2) => .returned (unique_ptr_reset P σ2 self p)
      | none => .threw (σ1.after_throwing_clone a)
  | none => .returned σ1

/-- Assignment `indirect_value& operator=(indirect_value&& i)` on object `self`. -/
def move_assign (P : Policies T C D) (σ : State T C D) (self i : Nat) : State T C D :=
  let σ1 := σ.set_base self (σ.objs i).base
  let r := exchange_nullptr P σ1 i
  unique_ptr_move_assign P r.2 self r.1

/-- Destructor `~indirect_value() = default;` on object `self`: the destructor of `ptr_`
calls the deleter on the stored pointer when it is not null. -/
def dtor (P : Policies T C D) (σ : State T C D) (self : Nat) : State T C D :=
  match (σ.objs self).ptr_.ptr with
  | some a => σ.call_destroy P (σ.objs self).ptr_.del a
  | none => σ

/-- Dereference `operator*` on object `self`, read: the value of the pointee. -/
def operator_star (σ : State T C D) (self : Nat) : Option T :=
  match (σ.objs self).ptr_.ptr with
  | some a => σ.heap.read a
  | none => none

/-- Assignment `*self = v` through `operator*`. -/
def assign_through (σ : State T C D) (self : Nat) (v : T) : State T C D :=
  match (σ.objs self).ptr_.ptr with
  | some a => { σ with heap := σ.heap.write a v }
  | none => σ

/-- The call `std::swap` on the copy policies of objects `l` and `r`:
`tmp = move(a); a = move(b); b = move(tmp)`. -/
def swap_policy (σ : State T C D) (l r : Nat) : State T C D :=
  let tmp := (σ.objs l).base
  let σ1 := σ.set_base l (σ.objs r).base
  σ1.set_base r tmp

/-- The call `swap` on the `ptr_` members of objects `l` and `r`: stored pointers and
stored deleters are exchanged. -/
def swap_ptr (σ : State T C D) (l r : Nat) : State T C D :=
  let tmp := (σ.objs l).ptr_
  let σ1 : State T C D :=
    { σ with objs := Function.update σ.objs l { σ.objs l with ptr_ := (σ.objs r).ptr_ } }
  { σ1 with objs := Function.update σ1.objs r { σ1.objs r with ptr_ := tmp } }

/-- Function `friend void swap(indirect_value& lhs, indirect_value& rhs)`. -/
def swap (σ : State T C D) (lhs rhs : Nat) : State T C D :=
  swap_ptr (swap_policy σ lhs rhs) lhs rhs

/-- Number of calls of a destroy policy on address `a` so far. -/
def State.released (σ : State T C D) (a : Addr) : Nat := σ.trace.count (Event.destroy a)

/-- Handles `h1` and `h2` are both engaged with pointee value `v`, in distinct
pointee objects: a write through either one is seen through that one and not
through the other. -/
def Independent (σ : State T C D) (h1 h2 : Nat) (v : T) : Prop :=
  (σ.objs h1).operator_bool = true ∧ (σ.objs h2).operator_bool = true ∧
  operator_star σ h1 = some v ∧ operator_star σ h2 = some v ∧
  (σ.objs h2).operator_arrow ≠ (σ.objs h1).operator_arrow ∧
  ∀ w : T,
    operator_star (assign_through σ h1 w) h1 = some w ∧
    operator_star (assign_through σ h1 w) h2 = some v ∧
    operator_star (assign_through σ h2 w) h2 = some w ∧
    operator_star (assign_through σ h2 w) h1 = some v

/-- Storage before any handle has been constructed: no pointee, no policy call
yet, every handle slot filled with the policy values `c0`, `d0` and a null
pointer. -/
def State.blank (c0 : C) (d0 : D) : State T C D :=
  ⟨[], fun _ => ⟨⟨c0⟩, ⟨none, d0⟩⟩, []⟩

/-- An operation of a client program.  Handles are numbered in the order of
their construction: a constructor creates the handle with the next number, the
other operations name existing handles.  `in_place_construct v` carries the
value built by `T(ts...)` (`none` when that constructor throws);
`pointer_construct v c d` is `indirect_value(new T(v), c, d)`, or
`indirect_value(nullptr, c, d)` for `none`. -/
inductive Op (T C D : Type) where
  | default_construct
  | in_place_construct (v : Option T)
  | pointer_construct (v : Option T) (c : C) (d : D)
  | copy_construct (src : Nat)
  | move_construct (src : Nat)
  | copy_assign (dst src : Nat)
  | move_assign (dst src : Nat)
  | swap (lhs rhs : Nat)

/-- The operation names only handles among the `n` constructed so far. -/
def Op.scoped (n : Nat) : Op T C D → Bool
  | .default_construct => true
  | .in_place_construct _ => true
  | .pointer_construct _ _ _ => true
  | .copy_construct src => decide (src < n)
  | .move_construct src => decide (src < n)
  | .copy_assign dst src => decide (dst < n) && decide (src < n)
  | .move_assign dst src => decide (dst < n) && decide (src < n)
  | .swap lhs rhs => decide (lhs < n) && decide (rhs < n)

/-- The operation is a constructor. -/
def Op.constructs : Op T C D → Bool
  | .default_construct => true
  | .in_place_construct _ => true
  | .pointer_construct _ _ _ => true
  | .copy_construct _ => true
  | .move_construct _ => true
  | _ => false

/-- Every operation of the program names only handles constructed before it. -/
def scopedProgram : Nat → List (Op T C D) → Bool
  | _, [] => true
  | n, op :: ops => op.scoped n && scopedProgram (if op.constructs then n + 1 else n) ops

/-- Outcome of an operation together with the number of handles constructed:
a constructor that throws constructs no handle. -/
def Result.count {S : Type} (n : Nat) (constructs : Bool) : Result S → Result (Nat × S)
  | .returned s => .returned (if constructs then n + 1 else n, s)
  | .threw s => .threw (n, s)

/-- Execute one operation when `n` handles have been constructed. -/
def Op.exec (P : Policies T C D) (n : Nat) (σ : State T C D) :
    Op T C D → Result (Nat × State T C D)
  | .default_construct => .returned (n + 1, ctor_default P σ n)
  | .in_place_construct v => (ctor_in_place P id σ n v).count n true
  | .pointer_construct none c d => .returned (n + 1, ctor_ptr σ n none c d)
  | .pointer_construct (some v) c d =>
    .returned (n + 1, ctor_ptr { σ with heap := (σ.heap.alloc v).2 } n (some (σ.heap.alloc v).1)
      c d)
  | .copy_construct src => (ctor_copy P σ n src).count n true
  | .move_construct src => .returned (n + 1, ctor_move P σ n src)
  | .copy_assign dst src => (isocpp_p1950.copy_assign P σ dst src).count n false
  | .move_assign dst src => .returned (n, isocpp_p1950.move_assign P σ dst src)
  | .swap lhs rhs => .returned (n, isocpp_p1950.swap σ lhs rhs)

/-- Execute a program; an exception ends the execution. -/
def run (P : Policies T C D) : Nat → State T C D → List (Op T C D) → Nat × State T C D
  | n, σ, [] => (n, σ)
  | n, σ, op :: ops =>
    match op.exec P n σ with
    | .returned s => run P s.1 s.2 ops
    | .threw s => s

/-- Destroy the handles `n - 1`, ..., `0`, in reverse order of construction. -/
def destroy_all (P : Policies T C D) : Nat → State T C D → State T C D
  | 0, σ => σ
  | n + 1, σ => destroy_all P n (dtor P σ n)

/-- State at scope exit: the program is executed from storage `o` with an
empty heap, then every handle constructed is destroyed. -/
def scope_exit (P : Policies T C D) (o : Nat → indirect_value C D) (prog : List (Op T C D)) :
    State T C D :=
  destroy_all P (run P 0 ⟨[], o, []⟩ prog).1 (run P 0 ⟨[], o, []⟩ prog).2

/-- Ownership invariant for handles `0 .. n-1` with stored pointers `p`, heap `H`
and release counts `r`: every owned pointee is alive and unreleased, no
pointee has two owners, every other cell of the heap is dead and was released
once, and nothing outside the heap was released. -/
structure Owned (n : Nat) (p : Nat → Option Addr) (H : Heap T) (r : Addr → Nat) : Prop where
  live : ∀ i a, i < n → p i = some a → (H.read a).isSome = true ∧ r a = 0
  excl : ∀ i j a, i < n → j < n → p i = some a → p j = some a → i = j
  dead : ∀ a, a < H.length → (∃ i, i < n ∧ p i = some a) ∨ (H.read a = none ∧ r a = 1)
  fresh : ∀ a, H.length ≤ a → r a = 0

/-- The ownership invariant on a state with `n` handles constructed. -/
def Inv (n : Nat) (σ : State T C D) : Prop :=
  Owned n (fun i => (σ.objs i).ptr_.ptr) σ.heap σ.released

end ops

/-- Policies with state, used in examples.  A copy policy in state `0` throws
on every call and in any other state clones like `default_copy`; a destroy
policy in state `0` leaves the object alone (storage managed elsewhere) and in
any other state deletes it. -/
def examplePolicies : Policies Nat Nat Nat where
  copy := fun c => if c = 0 then fun _ _ => none else default_copy
  destroy := fun d => if d = 0 then fun _ H => H else default_delete
  defaultC := 1
  defaultD := 1

/-- Example with the default policies: handle 0 owns a pointee holding 7 and
handle 1 owns a pointee holding 9 (both made by `new` and handed over),
handle 2 is default-constructed. -/
def exampleDefault : State Nat Unit Unit :=
  ctor_default (defaultPolicies Nat)
    (ctor_ptr (ctor_ptr ⟨[some 7, some 9], (State.blank (T := Nat) () ()).objs, []⟩ 0 (some 0) () ())
      1 (some 1) () ()) 2

/-- Example with stateful policies: handle 0 owns a pointee holding 7 with
copy policy state 5 and destroy policy state 3, handle 1 owns a pointee holding
9 with copy policy state 0 (a policy that throws) and destroy policy state 4,
handle 2 is empty with copy policy state 6 and destroy policy state 2; the
storage of every other handle is zero-filled. -/
def exampleStateful : State Nat Nat Nat :=
  ctor_ptr (ctor_ptr (ctor_ptr ⟨[some 7, some 9], (State.blank (T := Nat) 0 0).objs, []⟩ 0 (some 0) 5 3)
    1 (some 1) 0 4) 2 none 6 2

/-- Example program with the default policies, using every operation; the
last constructor throws. -/
def exampleProgram : List (Op Nat Unit Unit) :=
  [.in_place_construct (some 7), .pointer_construct (some 9) () (), .default_construct,
   .copy_construct 0, .move_construct 1, .copy_assign 2 0, .copy_assign 0 2, .copy_assign 3 3,
   .move_assign 1 4, .move_assign 0 3, .move_assign 2 2, .swap 0 1, .copy_assign 4 2,
   .pointer_construct none () (), .copy_assign 0 5, .in_place_construct none,
   .default_construct]

/-! ## Heap lemmas -/

section heap

variable {T : Type}

theorem Heap.read_lt {H : Heap T} {a : Addr} {v : T} (h : H.read a = some v) : a < H.length := by
  by_contra hlt
  simp [Heap.read, List.getD_eq_getElem?_getD, List.getElem?_eq_none (not_lt.mp hlt)] at h

theorem Heap.read_alloc_old (H : Heap T) (v : T) {a : Addr} (h : a < H.length) :
    (H.alloc v).2.read a = H.read a := by
  simp [Heap.read, Heap.alloc, List.getD_eq_getElem?_getD, List.getElem?_append_left h]

theorem Heap.read_alloc_new (H : Heap T) (v : T) : (H.alloc v).2.read (H.alloc v).1 = some v := by
  simp [Heap.read, Heap.alloc, List.getD_eq_getElem?_getD]

theorem Heap.read_free_ne (H : Heap T) {a b : Addr} (h : b ≠ a) :
    (H.free a).read b = H.read b := by
  simp [Heap.read, Heap.free, List.getD_eq_getElem?_getD, List.getElem?_set_ne (Ne.symm h)]

theorem Heap.read_free_same (H : Heap T) (a : Addr) : (H.free a).read a = none := by
  simp only [Heap.read, Heap.free, List.getD_eq_getElem?_getD, List.getElem?_set]
  by_cases h : a < List.length H <;> simp [h]

theorem Heap.read_write_ne (H : Heap T) {a b : Addr} (v : T) (h : b ≠ a) :
    (H.write a v).read b = H.read b := by
  simp [Heap.read, Heap.write, List.getD_eq_getElem?_getD, List.getElem?_set_ne (Ne.symm h)]

theorem Heap.read_write_same (H : Heap T) {a : Addr} (v : T) (h : a < H.length) :
    (H.write a v).read a = some v := by
  simp [Heap.read, Heap.write, List.getD_eq_getElem?_getD, List.getElem?_set, h]

end heap

/-! ## Effect of the `unique_ptr` operations on the state -/

section state

variable {T C D : Type}

@[simp] theorem State.set_base_objs (σ : State T C D) (i : Nat) (b : indirect_value_base C) :
    (σ.set_base i b).objs = Function.update σ.objs i ⟨b, (σ.objs i).ptr_⟩ := rfl

@[simp] theorem State.set_base_heap (σ : State T C D) (i : Nat) (b : indirect_value_base C) :
    (σ.set_base i b).heap = σ.heap := rfl

@[simp] theorem State.set_base_trace (σ : State T C D) (i : Nat) (b : indirect_value_base C) :
    (σ.set_base i b).trace = σ.trace := rfl

@[simp] theorem State.set_ptr_objs (σ : State T C D) (i : Nat) (p : Option Addr) :
    (σ.set_ptr i p).objs = Function.update σ.objs i ⟨(σ.objs i).base, ⟨p, (σ.objs i).ptr_.del⟩⟩ :=
  rfl

@[simp] theorem State.set_ptr_heap (σ : State T C D) (i : Nat) (p : Option Addr) :
    (σ.set_ptr i p).heap = σ.heap := rfl

@[simp] theorem State.set_ptr_trace (σ : State T C D) (i : Nat) (p : Option Addr) :
    (σ.set_ptr i p).trace = σ.trace := rfl

@[simp] theorem State.set_del_objs (σ : State T C D) (i : Nat) (d : D) :
    (σ.set_del i d).objs = Function.update σ.objs i ⟨(σ.objs i).base, ⟨(σ.objs i).ptr_.ptr, d⟩⟩ :=
  rfl

@[simp] theorem State.set_del_heap (σ : State T C D) (i : Nat) (d : D) :
    (σ.set_del i d).heap = σ.heap := rfl

@[simp] theorem State.set_del_trace (σ : State T C D) (i : Nat) (d : D) :
    (σ.set_del i d).trace = σ.trace := rfl

@[simp] theorem State.call_destroy_objs (P : Policies T C D) (σ : State T C D) (d : D) (a : Addr) :
    (σ.call_destroy P d a).objs = σ.objs := rfl

@[simp] theorem State.call_destroy_heap (P : Policies T C D) (σ : State T C D) (d : D) (a : Addr) :
    (σ.call_destroy P d a).heap = P.destroy d a σ.heap := rfl

@[simp] theorem State.call_destroy_trace (P : Policies T C D) (σ : State T C D) (d : D)
    (a : Addr) : (σ.call_destroy P d a).trace = σ.trace ++ [Event.destroy a] := rfl

theorem unique_ptr_reset_objs (P : Policies T C D) (σ : State T C D) (i : Nat) (p : Option Addr) :
    (unique_ptr_reset P σ i p).objs
      = Function.update σ.objs i ⟨(σ.objs i).base, ⟨p, (σ.objs i).ptr_.del⟩⟩ := by
  unfold unique_ptr_reset
  split <;> simp

theorem unique_ptr_reset_heap (P : Policies T C D) (σ : State T C D) (i : Nat) (p : Option Addr) :
    (unique_ptr_reset P σ i p).heap
      = match (σ.objs i).ptr_.ptr with
        | some old => P.destroy (σ.objs i).ptr_.del old σ.heap
        | none => σ.heap := by
  unfold unique_ptr_reset
  split <;> simp

theorem unique_ptr_reset_trace (P : Policies T C D) (σ : State T C D) (i : Nat) (p : Option Addr) :
    (unique_ptr_reset P σ i p).trace
      = match (σ.objs i).ptr_.ptr with
        | some old => σ.trace ++ [Event.destroy old]
        | none => σ.trace := by
  unfold unique_ptr_reset
  split <;> simp

theorem unique_ptr_move_assign_objs (P : Policies T C D) (σ : State T C D) (i : Nat)
    (r : unique_ptr D) :
    (unique_ptr_move_assign P σ i r).objs = Function.update σ.objs i ⟨(σ.objs i).base, r⟩ := by
  simp [unique_ptr_move_assign, unique_ptr_reset_objs]

theorem unique_ptr_move_assign_heap (P : Policies T C D) (σ : State T C D) (i : Nat)
    (r : unique_ptr D) :
    (unique_ptr_move_assign P σ i r).heap
      = match (σ.objs i).ptr_.ptr with
        | some old => P.destroy (σ.objs i).ptr_.del old σ.heap
        | none => σ.heap := by
  simp [unique_ptr_move_assign, unique_ptr_reset_heap]

theorem unique_ptr_move_assign_trace (P : Policies T C D) (σ : State T C D) (i : Nat)
    (r : unique_ptr D) :
    (unique_ptr_move_assign P σ i r).trace
      = match (σ.objs i).ptr_.ptr with
        | some old => σ.trace ++ [Event.destroy old]
        | none => σ.trace := by
  simp [unique_ptr_move_assign, unique_ptr_reset_trace]

theorem call_copy_some {P : Policies T C D} {σ σ2 : State T C D} {self : Nat} {a : Addr}
    {p : Option Addr} (h : call_copy P σ self a = some (p, σ2)) :
    ∃ H, P.copy (σ.objs self).get_c a σ.heap = some (p, H) ∧
      σ2 = { σ with heap := H, trace := σ.trace ++ [Event.clone a] } := by
  unfold call_copy at h
  split at h
  · rename_i p' H heq
    cases h
    exact ⟨H, heq, rfl⟩
  · cases h

theorem call_copy_none {P : Policies T C D} {σ : State T C D} {self : Nat} {a : Addr}
    (h : call_copy P σ self a = none) : P.copy (σ.objs self).get_c a σ.heap = none := by
  unfold call_copy at h
  split at h
  · cases h
  · assumption

theorem swap_objs (σ : State T C D) (a b i : Nat) :
    (swap σ a b).objs i = if i = b then σ.objs a else if i = a then σ.objs b else σ.objs i := by
  by_cases hab : a = b
  · subst hab
    by_cases hia : i = a
    · subst hia; simp [swap, swap_ptr, swap_policy]
    · simp [swap, swap_ptr, swap_policy, Function.update_noteq hia, hia]
  · by_cases hib : i = b
    · subst hib
      simp [swap, swap_ptr, swap_policy, Function.update_noteq hab,
        Function.update_noteq (Ne.symm hab)]
    · by_cases hia : i = a
      · subst hia
        simp [swap, swap_ptr, swap_policy, Function.update_noteq hib,
          Function.update_noteq (Ne.symm hib), hib]
      · simp [swap, swap_ptr, swap_policy, Function.update_noteq hib, Function.update_noteq hia,
          hib, hia]

theorem State.eq_of_fields {σ τ : State T C D} (hH : σ.heap = τ.heap)
    (ho : ∀ i, σ.objs i = τ.objs i) (ht : σ.trace = τ.trace) : σ = τ := by
  cases σ
  cases τ
  simp only [State.mk.injEq]
  exact ⟨hH, funext ho, ht⟩

theorem released_append (σ : State T C D) (l : List Event) (H : Heap T)
    (o : Nat → indirect_value C D) (x : Addr) :
    State.released (T := T) ⟨H, o, σ.trace ++ l⟩ x = σ.released x + l.count (Event.destroy x) := by
  simp [State.released, List.count_append]

theorem count_destroy_single (a x : Addr) :
    [Event.destroy a].count (Event.destroy x) = if x = a then 1 else 0 := by
  by_cases h : x = a
  · subst h; simp
  · have : Event.destroy a ≠ Event.destroy x := fun e => h (Event.destroy.inj e).symm
    simp [h, List.count_cons, this]

theorem count_destroy_clone (a x : Addr) : [Event.clone a].count (Event.destroy x) = 0 := by
  simp [List.count_cons]

end state

/-! ## Ownership invariant -/

section ownership

variable {T : Type}

theorem Heap.length_free (H : Heap T) (a : Addr) : (H.free a).length = H.length := by
  simp [Heap.free]

theorem Heap.read_isSome_lt {H : Heap T} {a : Addr} (h : (H.read a).isSome = true) :
    a < H.length := by
  obtain ⟨v, hv⟩ := Option.isSome_iff_exists.mp h
  exact Heap.read_lt hv

theorem Heap.free_append (H : Heap T) (x : Option T) {a : Addr} (h : a < H.length) :
    Heap.free (H ++ [x]) a = H.free a ++ [x] := by
  simp [Heap.free, List.set_append, h]

theorem Owned.ext {n : Nat} {p p' : Nat → Option Addr} {H : Heap T} {r r' : Addr → Nat}
    (h : Owned n p H r) (hp : ∀ i, i < n → p' i = p i) (hr : ∀ a, r' a = r a) :
    Owned n p' H r' := by
  refine ⟨?_, ?_, ?_, ?_⟩
  · intro i a hi hpi
    rw [hp i hi] at hpi
    rw [hr]
    exact h.live i a hi hpi
  · intro i j a hi hj hpi hpj
    rw [hp i hi] at hpi
    rw [hp j hj] at hpj
    exact h.excl i j a hi hj hpi hpj
  · intro a ha
    rcases h.dead a ha with ⟨i, hi, hpi⟩ | hd
    · exact Or.inl ⟨i, hi, by rw [hp i hi]; exact hpi⟩
    · exact Or.inr (by rw [hr]; exact hd)
  · intro a ha
    rw [hr]
    exact h.fresh a ha

theorem Owned.grow {n : Nat} {p : Nat → Option Addr} {H : Heap T} {r : Addr → Nat}
    (h : Owned n p H r) (hn : p n = none) : Owned (n + 1) p H r := by
  have key : ∀ i a, i < n + 1 → p i = some a → i < n := by
    intro i a hi hpi
    rcases Nat.lt_succ_iff_lt_or_eq.mp hi with h1 | h1
    · exact h1
    · subst h1; rw [hn] at hpi; cases hpi
  refine ⟨?_, ?_, ?_, h.fresh⟩
  · intro i a hi hpi
    exact h.live i a (key i a hi hpi) hpi
  · intro i j a hi hj hpi hpj
    exact h.excl i j a (key i a hi hpi) (key j a hj hpj) hpi hpj
  · intro a ha
    rcases h.dead a ha with ⟨i, hi, hpi⟩ | hd
    · exact Or.inl ⟨i, Nat.lt_succ_of_lt hi, hpi⟩
    · exact Or.inr hd

theorem Owned.alloc {n : Nat} {p : Nat → Option Addr} {H : Heap T} {r : Addr → Nat}
    (h : Owned n p H r) (k : Nat) (v : T) (hk : k < n) (hpk : p k = none) :
    Owned n (Function.update p k (some H.length)) (H ++ [some v]) r := by
  have hlt : ∀ i a, i < n → p i = some a → a < H.length := fun i a hi hpi =>
    Heap.read_isSome_lt (h.live i a hi hpi).1
  have hnew : Heap.read (H ++ [some v]) H.length = some v := Heap.read_alloc_new H v
  have hold : ∀ a, a < H.length → Heap.read (H ++ [some v]) a = H.read a := fun a ha =>
    Heap.read_alloc_old H v ha
  refine ⟨?_, ?_, ?_, ?_⟩
  · intro i a hi hpi
    by_cases hik : i = k
    · subst hik
      simp only [Function.update_same] at hpi
      cases hpi
      exact ⟨by rw [hnew]; rfl, h.fresh _ (Nat.le_refl _)⟩
    · rw [Function.update_noteq hik] at hpi
      rw [hold a (hlt i a hi hpi)]
      exact h.live i a hi hpi
  · intro i j a hi hj hpi hpj
    by_cases hik : i = k <;> by_cases hjk : j = k
    · rw [hik, hjk]
    · subst hik
      simp only [Function.update_same] at hpi
      cases hpi
      rw [Function.update_noteq hjk] at hpj
      exact absurd (hlt j _ hj hpj) (Nat.lt_irrefl _)
    · subst hjk
      simp only [Function.update_same] at hpj
      cases hpj
      rw [Function.update_noteq hik] at hpi
      exact absurd (hlt i _ hi hpi) (Nat.lt_irrefl _)
    · rw [Function.update_noteq hik] at hpi
      rw [Function.update_noteq hjk] at hpj
      exact h.excl i j a hi hj hpi hpj
  · intro a ha
    have ha' : a < H.length + 1 := by simpa using ha
    rcases Nat.lt_succ_iff_lt_or_eq.mp ha' with h1 | h1
    · rcases h.dead a h1 with ⟨i, hi, hpi⟩ | hd
      · have hik : i ≠ k := by
          rintro rfl
          rw [hpk] at hpi
          cases hpi
        exact Or.inl ⟨i, hi, by rw [Function.update_noteq hik]; exact hpi⟩
      · exact Or.inr (by rw [hold a h1]; exact hd)
    · subst h1
      exact Or.inl ⟨k, hk, by simp⟩
  · intro a ha
    have ha' : H.length + 1 ≤ a := by simpa using ha
    exact h.fresh a (Nat.le_of_succ_le ha')

theorem Owned.release {n : Nat} {p : Nat → Option Addr} {H : Heap T} {r : Addr → Nat}
    (h : Owned n p H r) (k : Nat) (a : Addr) (hk : k < n) (hpk : p k = some a) :
    Owned n (Function.update p k none) (H.free a) (fun x => r x + if x = a then 1 else 0) := by
  have hla : a < H.length := Heap.read_isSome_lt (h.live k a hk hpk).1
  refine ⟨?_, ?_, ?_, ?_⟩
  · intro i b hi hpi
    by_cases hik : i = k
    · subst hik
      simp at hpi
    · rw [Function.update_noteq hik] at hpi
      have hba : b ≠ a := by
        rintro rfl
        exact hik (h.excl i k b hi hk hpi hpk)
      rw [Heap.read_free_ne H hba]
      simpa [hba] using h.live i b hi hpi
  · intro i j b hi hj hpi hpj
    by_cases hik : i = k
    · subst hik
      simp at hpi
    · by_cases hjk : j = k
      · subst hjk
        simp at hpj
      · rw [Function.update_noteq hik] at hpi
        rw [Function.update_noteq hjk] at hpj
        exact h.excl i j b hi hj hpi hpj
  · intro b hb
    rw [Heap.length_free] at hb
    by_cases hba : b = a
    · subst hba
      exact Or.inr ⟨Heap.read_free_same H b, by simp [(h.live k b hk hpk).2]⟩
    · rcases h.dead b hb with ⟨i, hi, hpi⟩ | hd
      · have hik : i ≠ k := by
          rintro rfl
          rw [hpk] at hpi
          exact hba (Option.some.inj hpi).symm
        exact Or.inl ⟨i, hi, by rw [Function.update_noteq hik]; exact hpi⟩
      · exact Or.inr (by rw [Heap.read_free_ne H hba]; simpa [hba] using hd)
  · intro b hb
    rw [Heap.length_free] at hb
    have hba : b ≠ a := Nat.ne_of_gt (Nat.lt_of_lt_of_le hla hb)
    simpa [hba] using h.fresh b hb

theorem Owned.reown {n : Nat} {p q : Nat → Option Addr} {H : Heap T} {r : Addr → Nat}
    (h : Owned n p H r)
    (hold : ∀ i a, i < n → q i = some a → ∃ j, j < n ∧ p j = some a)
    (hinj : ∀ i j a, i < n → j < n → q i = some a → q j = some a → i = j)
    (hnew : ∀ i a, i < n → p i = some a → ∃ j, j < n ∧ q j = some a) :
    Owned n q H r := by
  refine ⟨?_, hinj, ?_, h.fresh⟩
  · intro i a hi hqi
    obtain ⟨j, hj, hpj⟩ := hold i a hi hqi
    exact h.live j a hj hpj
  · intro a ha
    rcases h.dead a ha with ⟨i, hi, hpi⟩ | hd
    · exact Or.inl (hnew i a hi hpi)
    · exact Or.inr hd

theorem Owned.move {n : Nat} {p : Nat → Option Addr} {H : Heap T} {r : Addr → Nat}
    (h : Owned n p H r) (k j : Nat) (hk : k < n) (hj : j < n) (hkj : k ≠ j) (hpk : p k = none) :
    Owned n (Function.update (Function.update p k (p j)) j none) H r := by
  have hq : ∀ i, Function.update (Function.update p k (p j)) j none i
      = if i = j then none else if i = k then p j else p i := by
    intro i
    simp only [Function.update_apply]
  refine h.reown ?_ ?_ ?_
  · intro i a hi hqi
    rw [hq] at hqi
    split_ifs at hqi with h1 h2
    · exact ⟨j, hj, hqi⟩
    · exact ⟨i, hi, hqi⟩
  · intro i i' a hi hi' hqi hqi'
    rw [hq] at hqi hqi'
    split_ifs at hqi hqi' with h1 h2 h3 h4 h5 h6
    · rw [h2, h4]
    · exact absurd (h.excl j i' a hj hi' hqi hqi') (Ne.symm h3)
    · exact absurd (h.excl i j a hi hj hqi hqi') h1
    · exact h.excl i i' a hi hi' hqi hqi'
  · intro i a hi hpi
    by_cases hij : i = j
    · subst hij
      exact ⟨k, hk, by rw [hq]; simp [hkj, hpi]⟩
    · have hik : i ≠ k := by
        rintro rfl
        rw [hpk] at hpi
        cases hpi
      exact ⟨i, hi, by rw [hq]; simp [hij, hik, hpi]⟩

theorem Owned.swap {n : Nat} {p : Nat → Option Addr} {H : Heap T} {r : Addr → Nat}
    (h : Owned n p H r) (k j : Nat) (hk : k < n) (hj : j < n) :
    Owned n (Function.update (Function.update p k (p j)) j (p k)) H r := by
  have hq : ∀ i, Function.update (Function.update p k (p j)) j (p k) i
      = p (if i = j then k else if i = k then j else i) := by
    intro i
    simp only [Function.update_apply]
    split_ifs <;> rfl
  have hg : ∀ i, i < n → (if i = j then k else if i = k then j else i) < n := by
    intro i hi
    split_ifs <;> assumption
  have hgg : ∀ i, (if (if i = j then k else if i = k then j else i) = j then k
      else if (if i = j then k else if i = k then j else i) = k then j
      else (if i = j then k else if i = k then j else i)) = i := by
    intro i
    split_ifs <;> omega
  refine h.reown ?_ ?_ ?_
  · intro i a hi hqi
    rw [hq] at hqi
    exact ⟨_, hg i hi, hqi⟩
  · intro i i' a hi hi' hqi hqi'
    rw [hq] at hqi hqi'
    have e := h.excl _ _ a (hg i hi) (hg i' hi') hqi hqi'
    rw [← hgg i, ← hgg i', e]
  · intro i a hi hpi
    refine ⟨_, hg i hi, ?_⟩
    rw [hq, hgg]
    exact hpi

theorem Owned.restrict {n : Nat} {p : Nat → Option Addr} {H : Heap T} {r : Addr → Nat}
    (h : Owned (n + 1) p H r) (hn : p n = none) : Owned n p H r := by
  refine ⟨?_, ?_, ?_, h.fresh⟩
  · intro i a hi hpi
    exact h.live i a (Nat.lt_succ_of_lt hi) hpi
  · intro i j a hi hj hpi hpj
    exact h.excl i j a (Nat.lt_succ_of_lt hi) (Nat.lt_succ_of_lt hj) hpi hpj
  · intro a ha
    rcases h.dead a ha with ⟨i, hi, hpi⟩ | hd
    · rcases Nat.lt_succ_iff_lt_or_eq.mp hi with h1 | h1
      · exact Or.inl ⟨i, h1, hpi⟩
      · subst h1
        rw [hn] at hpi
        cases hpi
    · exact Or.inr hd

end ownership

/-! ## Handle operations preserve the ownership invariant -/

section preservation

variable {T C D : Type}

theorem Inv.of_owned {n : Nat} {σ : State T C D} {q : Nat → Option Addr} {H : Heap T}
    {r : Addr → Nat} (h : Owned n q H r) (hp : ∀ i, i < n → (σ.objs i).ptr_.ptr = q i)
    (hH : σ.heap = H) (hr : ∀ a, σ.released a = r a) : Inv n σ := by
  unfold Inv
  rw [hH]
  exact h.ext hp hr

theorem Owned.grow_none {n : Nat} {p : Nat → Option Addr} {H : Heap T} {r : Addr → Nat}
    (h : Owned n p H r) : Owned (n + 1) (Function.update p n none) H r := by
  refine Owned.grow (h.ext (fun i hi => ?_) (fun _ => rfl)) (by simp)
  rw [Function.update_noteq (Nat.ne_of_lt hi)]

theorem Owned.grow_alloc {n : Nat} {p : Nat → Option Addr} {H : Heap T} {r : Addr → Nat}
    (h : Owned n p H r) (v : T) :
    Owned (n + 1) (Function.update p n (some H.length)) (H ++ [some v]) r := by
  refine (h.grow_none.alloc n v (Nat.lt_succ_self n) (by simp)).ext (fun i _ => ?_) (fun _ => rfl)
  simp

theorem inv_ctor_default (P : Policies T C D) {n : Nat} {σ : State T C D} (h : Inv n σ) :
    Inv (n + 1) (ctor_default P σ n) := by
  refine Inv.of_owned (Owned.grow_none h) (fun i _ => ?_) rfl (fun _ => rfl)
  simp only [ctor_default, Function.update_apply]
  split_ifs <;> rfl

theorem inv_ctor_ptr_null {n : Nat} {σ : State T C D} (c : C) (d : D) (h : Inv n σ) :
    Inv (n + 1) (ctor_ptr σ n none c d) := by
  refine Inv.of_owned (Owned.grow_none h) (fun i _ => ?_) rfl (fun _ => rfl)
  simp only [ctor_ptr, Function.update_apply]
  split_ifs <;> rfl

theorem inv_ctor_ptr_new {n : Nat} {σ : State T C D} (v : T) (c : C) (d : D) (h : Inv n σ) :
    Inv (n + 1)
      (ctor_ptr { σ with heap := (σ.heap.alloc v).2 } n (some (σ.heap.alloc v).1) c d) := by
  refine Inv.of_owned (Owned.grow_alloc h v) (fun i _ => ?_) rfl (fun _ => rfl)
  simp only [ctor_ptr, Function.update_apply, Heap.alloc]
  split_ifs <;> rfl

theorem inv_ctor_in_place (P : Policies T C D) {n : Nat} {σ : State T C D} (v : Option T)
    (h : Inv n σ) :
    Inv ((ctor_in_place P id σ n v).count n true).state.1
      ((ctor_in_place P id σ n v).count n true).state.2 := by
  cases v with
  | none =>
    simp only [ctor_in_place, id, Result.count, Result.state]
    refine Inv.of_owned h (fun i hi => ?_) rfl (fun _ => rfl)
    simp [ctor_default, Function.update_noteq (Nat.ne_of_lt hi)]
  | some v =>
    simp only [ctor_in_place, id, Result.count, Result.state, if_true]
    refine Inv.of_owned (Owned.grow_alloc h v) (fun i _ => ?_) ?_ (fun _ => ?_)
    · simp only [unique_ptr_move_assign_objs, ctor_default, Function.update_apply, Heap.alloc]
      split_ifs <;> rfl
    · simp [unique_ptr_move_assign_heap, ctor_default, Heap.alloc]
    · simp [State.released, unique_ptr_move_assign_trace, ctor_default]

theorem Inv.pointee {n : Nat} {σ : State T C D} (h : Inv n σ) {i : Nat} {a : Addr} (hi : i < n)
    (hp : (σ.objs i).ptr_.ptr = some a) : ∃ v, σ.heap.read a = some v :=
  Option.isSome_iff_exists.mp (h.live i a hi hp).1

theorem inv_ctor_copy (P : Policies T C D) (hcopy : ∀ c, P.copy c = default_copy) {n : Nat}
    {σ : State T C D} (s : Nat) (hs : s < n) (h : Inv n σ) :
    Inv ((ctor_copy P σ n s).count n true).state.1 ((ctor_copy P σ n s).count n true).state.2 := by
  have hsn : s ≠ n := Nat.ne_of_lt hs
  cases hp : (σ.objs s).ptr_.ptr with
  | none =>
    simp only [ctor_copy, Function.update_noteq hsn, hp, Result.count, Result.state, if_true]
    refine Inv.of_owned (Owned.grow_none h) (fun i _ => ?_) rfl (fun _ => rfl)
    simp only [Function.update_apply]
    split_ifs <;> rfl
  | some a =>
    obtain ⟨v, hv⟩ := h.pointee hs hp
    simp only [ctor_copy, Function.update_noteq hsn, hp, call_copy, hcopy, default_copy, hv,
      Result.count, Result.state, if_true]
    refine Inv.of_owned (Owned.grow_alloc h v) (fun i _ => ?_) ?_ (fun x => ?_)
    · simp only [unique_ptr_move_assign_objs, Function.update_apply, Heap.alloc]
      split_ifs <;> rfl
    · simp [unique_ptr_move_assign_heap, Heap.alloc]
    · simp [State.released, unique_ptr_move_assign_trace, List.count_append, count_destroy_clone]

theorem inv_ctor_move (P : Policies T C D) {n : Nat} {σ : State T C D} (s : Nat) (hs : s < n)
    (h : Inv n σ) : Inv (n + 1) (ctor_move P σ n s) := by
  have hsn : s ≠ n := Nat.ne_of_lt hs
  have hns : n ≠ s := Ne.symm hsn
  have hm := (Owned.grow_none h).move n s (Nat.lt_succ_self n) (Nat.lt_succ_of_lt hs) hns
    (by simp)
  refine Inv.of_owned hm (fun i _ => ?_) ?_ (fun x => ?_)
  · simp only [ctor_move, exchange_nullptr_into, unique_ptr_reset_objs, State.set_ptr_objs,
      State.set_base_objs, Function.update_apply]
    split_ifs <;> simp_all
  · simp [ctor_move, exchange_nullptr_into, unique_ptr_reset_heap]
  · simp [State.released, ctor_move, exchange_nullptr_into, unique_ptr_reset_trace]

theorem inv_swap {n : Nat} {σ : State T C D} (a b : Nat) (ha : a < n) (hb : b < n)
    (h : Inv n σ) : Inv n (swap σ a b) := by
  refine Inv.of_owned (Owned.swap h a b ha hb) (fun i _ => ?_) rfl (fun x => rfl)
  rw [swap_objs]
  simp only [Function.update_apply]
  split_ifs <;> rfl

theorem inv_dtor (P : Policies T C D) (hdestroy : ∀ d, P.destroy d = default_delete) {n : Nat}
    {σ : State T C D} (h : Inv (n + 1) σ) : Inv n (dtor P σ n) := by
  cases hp : (σ.objs n).ptr_.ptr with
  | none =>
    simp only [dtor, hp]
    exact Owned.restrict h hp
  | some a =>
    simp only [dtor, hp]
    have hr := (Owned.release h n a (Nat.lt_succ_self n) hp).restrict (by simp)
    refine Inv.of_owned hr (fun i hi => ?_) ?_ (fun x => ?_)
    · simp [Function.update_noteq (Nat.ne_of_lt hi)]
    · simp [hdestroy, default_delete]
    · simp [State.released, List.count_append, count_destroy_single]

theorem inv_copy_assign (P : Policies T C D) (hcopy : ∀ c, P.copy c = default_copy)
    (hdestroy : ∀ d, P.destroy d = default_delete) {n : Nat} {σ : State T C D} (d s : Nat)
    (hd : d < n) (hs : s < n) (h : Inv n σ) :
    Inv ((copy_assign P σ d s).count n false).state.1
      ((copy_assign P σ d s).count n false).state.2 := by
  have hs1 : ((σ.set_base d (σ.objs s).base).objs s).ptr_.ptr = (σ.objs s).ptr_.ptr := by
    by_cases hds : s = d
    · subst hds; simp
    · simp [Function.update_noteq hds]
  have hd1 : ((σ.set_base d (σ.objs s).base).objs d).ptr_.ptr = (σ.objs d).ptr_.ptr := by simp
  cases hp : (σ.objs s).ptr_.ptr with
  | none =>
    simp only [copy_assign, hs1, hp, Result.count, Result.state]
    refine Inv.of_owned h (fun i _ => ?_) rfl (fun _ => rfl)
    simp only [State.set_base_objs, Function.update_apply]
    split_ifs with hi
    · rw [hi]
    · rfl
  | some a =>
    obtain ⟨v, hv⟩ := h.pointee hs hp
    cases hq : (σ.objs d).ptr_.ptr with
    | none =>
      simp only [copy_assign, hs1, hd1, hp, hq, call_copy, hcopy, default_copy,
        State.set_base_heap, hv, Result.count, Result.state]
      refine Inv.of_owned (Owned.alloc h d v hd hq) (fun i _ => ?_) ?_ (fun x => ?_)
      · simp only [unique_ptr_move_assign_objs, State.set_base_objs, Function.update_apply,
          Heap.alloc]
        split_ifs <;> rfl
      · simp [unique_ptr_move_assign_heap, hq, Heap.alloc]
      · simp [State.released, unique_ptr_move_assign_trace, hq, List.count_append,
          count_destroy_clone]
    | some b =>
      have hlb : b < σ.heap.length := Heap.read_isSome_lt (h.live d b hd hq).1
      simp only [copy_assign, hs1, hd1, hp, hq, call_copy, hcopy, default_copy,
        State.set_base_heap, hv, Result.count, Result.state]
      have hr := (Owned.release h d b hd hq).alloc d v hd (by simp)
      refine Inv.of_owned hr (fun i _ => ?_) ?_ (fun x => ?_)
      · simp only [unique_ptr_reset_objs, State.set_base_objs, Function.update_apply,
          Heap.alloc, Heap.length_free]
        split_ifs <;> rfl
      · simp [unique_ptr_reset_heap, hq, Heap.alloc, hdestroy, default_delete,
          Heap.free_append _ _ hlb]
      · simp [State.released, unique_ptr_reset_trace, hq, List.count_append,
          count_destroy_clone, count_destroy_single]

theorem inv_move_assign (P : Policies T C D) (hdestroy : ∀ d, P.destroy d = default_delete)
    {n : Nat} {σ : State T C D} (d s : Nat) (hd : d < n) (hs : s < n) (h : Inv n σ) :
    Inv n (move_assign P σ d s) := by
  by_cases hds : d = s
  · subst hds
    refine Inv.of_owned h (fun i _ => ?_) ?_ (fun x => ?_)
    · simp only [move_assign, exchange_nullptr, unique_ptr_move_assign_objs,
        unique_ptr_reset_objs, State.set_ptr_objs, State.set_base_objs, Function.update_apply]
      split_ifs with hi
      · simp [hi]
      · rfl
    · simp [move_assign, exchange_nullptr, unique_ptr_move_assign_heap, unique_ptr_reset_heap,
        unique_ptr_reset_objs]
    · simp [State.released, move_assign, exchange_nullptr, unique_ptr_move_assign_trace,
        unique_ptr_reset_trace, unique_ptr_reset_objs]
  · have hsd : s ≠ d := Ne.symm hds
    cases hq : (σ.objs d).ptr_.ptr with
    | none =>
      have hm := Owned.move h d s hd hs hds hq
      refine Inv.of_owned hm (fun i _ => ?_) ?_ (fun x => ?_)
      · simp only [move_assign, exchange_nullptr, unique_ptr_move_assign_objs,
          unique_ptr_reset_objs, State.set_ptr_objs, State.set_base_objs, Function.update_apply]
        split_ifs <;> simp_all
      · simp [move_assign, exchange_nullptr, unique_ptr_move_assign_heap, unique_ptr_reset_heap,
          unique_ptr_reset_objs, Function.update_noteq hds, Function.update_noteq hsd, hq]
      · simp [State.released, move_assign, exchange_nullptr, unique_ptr_move_assign_trace,
          unique_ptr_reset_trace, unique_ptr_reset_objs, Function.update_noteq hds,
          Function.update_noteq hsd, hq]
    | some b =>
      have hm := (Owned.release h d b hd hq).move d s hd hs hds (by simp)
      refine Inv.of_owned hm (fun i _ => ?_) ?_ (fun x => ?_)
      · simp only [move_assign, exchange_nullptr, unique_ptr_move_assign_objs,
          unique_ptr_reset_objs, State.set_ptr_objs, State.set_base_objs, Function.update_apply]
        split_ifs <;> simp_all
      · simp [move_assign, exchange_nullptr, unique_ptr_move_assign_heap, unique_ptr_reset_heap,
          unique_ptr_reset_objs, Function.update_noteq hds, Function.update_noteq hsd, hq,
          hdestroy, default_delete]
      · simp [State.released, move_assign, exchange_nullptr, unique_ptr_move_assign_trace,
          unique_ptr_reset_trace, unique_ptr_reset_objs, Function.update_noteq hds,
          Function.update_noteq hsd, hq, List.count_append, count_destroy_single]

theorem exec_inv (P : Policies T C D) (hcopy : ∀ c, P.copy c = default_copy)
    (hdestroy : ∀ d, P.destroy d = default_delete) {n : Nat} {σ : State T C D} (op : Op T C D)
    (hs : op.scoped n = true) (h : Inv n σ) :
    Inv (op.exec P n σ).state.1 (op.exec P n σ).state.2 := by
  cases op with
  | default_construct => exact inv_ctor_default P h
  | in_place_construct v => exact inv_ctor_in_place P v h
  | pointer_construct v c d =>
    cases v with
    | none => exact inv_ctor_ptr_null c d h
    | some v => exact inv_ctor_ptr_new v c d h
  | copy_construct src =>
    simp only [Op.scoped, decide_eq_true_eq] at hs
    exact inv_ctor_copy P hcopy src hs h
  | move_construct src =>
    simp only [Op.scoped, decide_eq_true_eq] at hs
    exact inv_ctor_move P src hs h
  | copy_assign dst src =>
    simp only [Op.scoped, Bool.and_eq_true, decide_eq_true_eq] at hs
    exact inv_copy_assign P hcopy hdestroy dst src hs.1 hs.2 h
  | move_assign dst src =>
    simp only [Op.scoped, Bool.and_eq_true, decide_eq_true_eq] at hs
    exact inv_move_assign P hdestroy dst src hs.1 hs.2 h
  | swap lhs rhs =>
    simp only [Op.scoped, Bool.and_eq_true, decide_eq_true_eq] at hs
    exact inv_swap lhs rhs hs.1 hs.2 h

theorem count_returned {S : Type} {n : Nat} {b : Bool} {r : Result S} {s : Nat × S}
    (h : r.count n b = Result.returned s) : s.1 = if b then n + 1 else n := by
  cases r with
  | returned x => simp only [Result.count, Result.returned.injEq] at h; rw [← h]
  | threw x => simp [Result.count] at h

theorem exec_count (P : Policies T C D) {n : Nat} {σ : State T C D} (op : Op T C D)
    {s : Nat × State T C D} (h : op.exec P n σ = Result.returned s) :
    s.1 = if op.constructs then n + 1 else n := by
  cases op with
  | default_construct => simp only [Op.exec, Result.returned.injEq] at h; rw [← h]; rfl
  | in_place_construct v => exact count_returned h
  | pointer_construct v c d =>
    cases v <;> (simp only [Op.exec, Result.returned.injEq] at h; rw [← h]; rfl)
  | copy_construct src => exact count_returned h
  | move_construct src => simp only [Op.exec, Result.returned.injEq] at h; rw [← h]; rfl
  | copy_assign dst src => exact count_returned h
  | move_assign dst src => simp only [Op.exec, Result.returned.injEq] at h; rw [← h]; rfl
  | swap lhs rhs => simp only [Op.exec, Result.returned.injEq] at h; rw [← h]; rfl

theorem run_inv (P : Policies T C D) (hcopy : ∀ c, P.copy c = default_copy)
    (hdestroy : ∀ d, P.destroy d = default_delete) (prog : List (Op T C D)) :
    ∀ (n : Nat) (σ : State T C D), scopedProgram n prog = true → Inv n σ →
      Inv (run P n σ prog).1 (run P n σ prog).2 := by
  induction prog with
  | nil => intro n σ _ h; exact h
  | cons op ops ih =>
    intro n σ hs h
    simp only [scopedProgram, Bool.and_eq_true] at hs
    have hstep := exec_inv P hcopy hdestroy op hs.1 h
    simp only [run]
    cases hr : op.exec P n σ with
    | returned s =>
      rw [hr] at hstep
      have hc := exec_count P op hr
      simp only []
      refine ih s.1 s.2 ?_ hstep
      rw [hc]
      exact hs.2
    | threw s =>
      rw [hr] at hstep
      exact hstep

theorem destroy_all_inv (P : Policies T C D) (hdestroy : ∀ d, P.destroy d = default_delete) :
    ∀ (n : Nat) (σ : State T C D), Inv n σ → Inv 0 (destroy_all P n σ) := by
  intro n
  induction n with
  | zero => intro σ h; exact h
  | succ n ih =>
    intro σ h
    exact ih _ (inv_dtor P hdestroy h)

theorem inv_start (o : Nat → indirect_value C D) : Inv 0 (⟨[], o, []⟩ : State T C D) := by
  refine ⟨?_, ?_, ?_, ?_⟩
  · intro i a hi; exact absurd hi (Nat.not_lt_zero _)
  · intro i j a hi; exact absurd hi (Nat.not_lt_zero _)
  · intro a ha; exact absurd ha (Nat.not_lt_zero _)
  · intro a _; rfl

theorem Inv.all_released {σ : State T C D} (h : Inv 0 σ) :
    σ.heap.liveCount = 0 ∧ (∀ a, a < σ.heap.length → σ.released a = 1) ∧
      (∀ a, σ.heap.length ≤ a → σ.released a = 0) := by
  have hdead : ∀ a, a < σ.heap.length → σ.heap.read a = none ∧ σ.released a = 1 := by
    intro a ha
    rcases h.dead a ha with ⟨i, hi, _⟩ | hd
    · exact absurd hi (Nat.not_lt_zero _)
    · exact hd
  refine ⟨?_, fun a ha => (hdead a ha).2, h.fresh⟩
  simp only [Heap.liveCount, List.length_eq_zero, List.filter_eq_nil_iff]
  intro x hx
  obtain ⟨a, ha, rfl⟩ := List.getElem_of_mem hx
  have := (hdead a ha).1
  simp only [Heap.read, List.getD_eq_getElem?_getD, List.getElem?_eq_getElem ha,
    Option.getD_some] at this
  simp [this]

end preservation

section claims

variable {T C D : Type}

theorem independent_of_reads {σ : State T C D} {h1 h2 : Nat} {a b : Addr} {v : T}
    (h1p : (σ.objs h1).ptr_.ptr = some a) (h2p : (σ.objs h2).ptr_.ptr = some b) (hab : b ≠ a)
    (ha : σ.heap.read a = some v) (hb : σ.heap.read b = some v) : Independent σ h1 h2 v := by
  have hla := Heap.read_lt ha
  have hlb := Heap.read_lt hb
  refine ⟨by simp [indirect_value.operator_bool, h1p], by simp [indirect_value.operator_bool, h2p],
    by simp [operator_star, h1p, ha], by simp [operator_star, h2p, hb],
    by simp [indirect_value.operator_arrow, h1p, h2p, hab], fun w => ⟨?_, ?_, ?_, ?_⟩⟩
  · simp [operator_star, assign_through, h1p, Heap.read_write_same _ _ hla]
  · simp [operator_star, assign_through, h1p, h2p, Heap.read_write_ne _ _ hab, hb]
  · simp [operator_star, assign_through, h2p, Heap.read_write_same _ _ hlb]
  · simp [operator_star, assign_through, h1p, h2p, Heap.read_write_ne _ _ (Ne.symm hab), ha]

/-- C1 (deep-copy independence): with the default copy policy, copy-constructing
`h2` from an engaged `h1` with pointee value `v`, or copy-assigning `h1` into any
other handle `h2` (empty, or engaged with its own live pointee), returns with
`h2` engaged with value `v` in a pointee distinct from that of `h1`; a later write
through `*h1` is not seen through `*h2` and conversely. -/
theorem deep_copy_independence (P : Policies T C D) (σ : State T C D) (h1 h2 : Nat) (a : Addr)
    (v : T) (hcopy : ∀ c, P.copy c = default_copy)
    (hdel : ∀ d x H y, y ≠ x → (P.destroy d x H).read y = H.read y)
    (hne : h2 ≠ h1) (hp : (σ.objs h1).ptr_.ptr = some a) (hv : σ.heap.read a = some v) :
    (∃ σ', ctor_copy P σ h2 h1 = Result.returned σ' ∧ Independent σ' h1 h2 v) ∧
    ((∀ a2, (σ.objs h2).ptr_.ptr = some a2 → a2 ≠ a ∧ a2 < σ.heap.length) →
      ∃ σ', copy_assign P σ h2 h1 = Result.returned σ' ∧ Independent σ' h1 h2 v) := by
  have hla := Heap.read_lt hv
  have hnew : (σ.heap.alloc v).2.read σ.heap.length = some v := Heap.read_alloc_new σ.heap v
  have hold : (σ.heap.alloc v).2.read a = some v := by rw [Heap.read_alloc_old _ _ hla, hv]
  constructor
  · simp only [ctor_copy, call_copy, hcopy, default_copy, Function.update_noteq (Ne.symm hne), hp,
      hv, indirect_value.get_c]
    refine ⟨_, rfl, ?_⟩
    refine independent_of_reads (a := a) (b := σ.heap.length) ?_ ?_ (Nat.ne_of_gt hla) ?_ ?_
    · simp [unique_ptr_move_assign, unique_ptr_reset, State.set_del, State.set_ptr, Function.update_noteq (Ne.symm hne), hp]
    · simp [unique_ptr_move_assign, unique_ptr_reset, State.set_del, State.set_ptr]
      rfl
    · simp [unique_ptr_move_assign, unique_ptr_reset, State.set_del, State.set_ptr, hold]
    · simp [unique_ptr_move_assign, unique_ptr_reset, State.set_del, State.set_ptr, hnew]
  · intro hown
    simp only [copy_assign, call_copy, hcopy, default_copy, State.set_base, Function.update_noteq (Ne.symm hne), hp,
      hv, indirect_value.get_c, Function.update_same]
    cases h2p : (σ.objs h2).ptr_.ptr with
    | none =>
      simp only []
      refine ⟨_, rfl, ?_⟩
      refine independent_of_reads (a := a) (b := σ.heap.length) ?_ ?_ (Nat.ne_of_gt hla) ?_ ?_
      · simp [unique_ptr_move_assign, unique_ptr_reset, State.set_del, State.set_ptr,
          Function.update_noteq (Ne.symm hne), hp, h2p]
      · simp [unique_ptr_move_assign, unique_ptr_reset, State.set_del, State.set_ptr, h2p]
        rfl
      · simp [unique_ptr_move_assign, unique_ptr_reset, State.set_del, State.set_ptr, hold, h2p]
      · simp [unique_ptr_move_assign, unique_ptr_reset, State.set_del, State.set_ptr, hnew, h2p]
    | some a2 =>
      obtain ⟨ha2, hl2⟩ := hown a2 h2p
      simp only []
      refine ⟨_, rfl, ?_⟩
      refine independent_of_reads (a := a) (b := σ.heap.length) ?_ ?_ (Nat.ne_of_gt hla) ?_ ?_
      · simp [unique_ptr_reset, State.call_destroy, State.set_ptr,
          Function.update_noteq (Ne.symm hne), hp, h2p]
      · simp [unique_ptr_reset, State.call_destroy, State.set_ptr, h2p]
        rfl
      · simp [unique_ptr_reset, State.call_destroy, State.set_ptr, h2p,
          hdel _ _ _ _ (Ne.symm ha2), hold]
      · simp [unique_ptr_reset, State.call_destroy, State.set_ptr, h2p,
          hdel _ _ _ _ (Nat.ne_of_gt hl2), hnew]

/-- Witness for C1: handle 0 (value 7) copied into fresh storage 3 and into the
engaged handle 1 (value 9). -/
theorem deep_copy_independence_witness :
    ((exampleDefault.objs 0).ptr_.ptr = some 0 ∧ exampleDefault.heap.read 0 = some 7) ∧
    (∃ σ', ctor_copy (defaultPolicies Nat) exampleDefault 3 0 = Result.returned σ' ∧
      Independent σ' 0 3 7) ∧
    (∃ σ', copy_assign (defaultPolicies Nat) exampleDefault 1 0 = Result.returned σ' ∧
      Independent σ' 0 1 7) :=
  ⟨⟨rfl, rfl⟩,
    (deep_copy_independence (defaultPolicies Nat) exampleDefault 0 3 0 7 (fun _ => rfl)
      (fun _ _ H _ h => Heap.read_free_ne H h) (by decide) rfl rfl).1,
    (deep_copy_independence (defaultPolicies Nat) exampleDefault 0 1 0 7 (fun _ => rfl)
      (fun _ _ H _ h => Heap.read_free_ne H h) (by decide) rfl rfl).2
      (fun a2 h => by
        have h1 : a2 = 1 := by
          have : some 1 = some a2 := h
          exact (Option.some.inj this).symm
        subst h1
        exact ⟨by decide, by decide⟩)⟩

/-- C2 (move empties source): for distinct handles `h1` and `h2`, after
move-constructing `h2` from `h1`, and after move-assigning `h1` into `h2`, the
boolean query on `h1` is false and `h2` holds the pointer `h1` held before (the
same pointee if `h1` was engaged, null if it was empty); move construction
leaves the heap as it was, so the pointee value is the one `h1` had. -/
theorem move_empties_source (P : Policies T C D) (σ : State T C D) (h1 h2 : Nat) (hne : h2 ≠ h1) :
    (((ctor_move P σ h2 h1).objs h1).operator_bool = false ∧
      ((ctor_move P σ h2 h1).objs h2).operator_arrow = (σ.objs h1).operator_arrow ∧
      ((ctor_move P σ h2 h1).objs h2).operator_bool = (σ.objs h1).operator_bool ∧
      operator_star (ctor_move P σ h2 h1) h2 = operator_star σ h1) ∧
    (((move_assign P σ h2 h1).objs h1).operator_bool = false ∧
      ((move_assign P σ h2 h1).objs h2).operator_arrow = (σ.objs h1).operator_arrow ∧
      ((move_assign P σ h2 h1).objs h2).operator_bool = (σ.objs h1).operator_bool) := by
  have hne' : h1 ≠ h2 := Ne.symm hne
  refine ⟨⟨?_, ?_, ?_, ?_⟩, ?_, ?_, ?_⟩
  · simp [ctor_move, exchange_nullptr_into, unique_ptr_reset, State.set_ptr, State.set_base,
      indirect_value.operator_bool, Function.update_noteq hne', Function.update_noteq hne]
  · simp [ctor_move, exchange_nullptr_into, unique_ptr_reset, State.set_ptr, State.set_base,
      indirect_value.operator_arrow, Function.update_noteq hne', Function.update_noteq hne]
  · simp [ctor_move, exchange_nullptr_into, unique_ptr_reset, State.set_ptr, State.set_base,
      indirect_value.operator_bool, Function.update_noteq hne', Function.update_noteq hne]
  · simp [ctor_move, exchange_nullptr_into, unique_ptr_reset, State.set_ptr, State.set_base,
      operator_star, Function.update_noteq hne', Function.update_noteq hne]
  · cases h : (σ.objs h2).ptr_.ptr <;>
    simp [move_assign, unique_ptr_move_assign, exchange_nullptr, unique_ptr_reset, State.set_ptr,
      State.set_base, State.set_del, State.call_destroy, indirect_value.operator_bool,
      Function.update_noteq hne', Function.update_noteq hne, h]
  · cases h : (σ.objs h2).ptr_.ptr <;>
    simp [move_assign, unique_ptr_move_assign, exchange_nullptr, unique_ptr_reset, State.set_ptr,
      State.set_base, State.set_del, State.call_destroy, indirect_value.operator_arrow,
      Function.update_noteq hne', Function.update_noteq hne, h]
  · cases h : (σ.objs h2).ptr_.ptr <;>
    simp [move_assign, unique_ptr_move_assign, exchange_nullptr, unique_ptr_reset, State.set_ptr,
      State.set_base, State.set_del, State.call_destroy, indirect_value.operator_bool,
      Function.update_noteq hne', Function.update_noteq hne, h]

/-- Witness for C2: handle 0 moved into fresh storage 3, and move-assigned into
the engaged handle 1. -/
theorem move_empties_source_witness :
    (3 : Nat) ≠ 0 ∧ (1 : Nat) ≠ 0 ∧
    ((ctor_move examplePolicies exampleStateful 3 0).objs 0).operator_bool = false ∧
    ((ctor_move examplePolicies exampleStateful 3 0).objs 3).operator_arrow = some 0 ∧
    operator_star (ctor_move examplePolicies exampleStateful 3 0) 3 = some 7 ∧
    ((move_assign examplePolicies exampleStateful 1 0).objs 0).operator_bool = false ∧
    ((move_assign examplePolicies exampleStateful 1 0).objs 1).operator_arrow = some 0 :=
  ⟨by decide, by decide,
    (move_empties_source examplePolicies exampleStateful 0 3 (by decide)).1.1,
    (move_empties_source examplePolicies exampleStateful 0 3 (by decide)).1.2.1,
    (move_empties_source examplePolicies exampleStateful 0 3 (by decide)).1.2.2.2,
    (move_empties_source examplePolicies exampleStateful 0 1 (by decide)).2.1,
    (move_empties_source examplePolicies exampleStateful 0 1 (by decide)).2.2.1⟩

/-- C3 (as the code behaves): copy-assigning an empty source `s` to an engaged
destination `d` returns with `d` still engaged with its prior pointee; the
destroy policy has not been called on that pointee and the heap is as before.
The claim asks for `d` to become empty and its pointee to be released once. -/
theorem copy_assign_from_empty_keeps_pointee (P : Policies T C D) (σ : State T C D) (d s : Nat)
    (a : Addr) (hd : (σ.objs d).ptr_.ptr = some a) (hs : (σ.objs s).ptr_.ptr = none) :
    ∃ σ', copy_assign P σ d s = Result.returned σ' ∧ (σ'.objs d).operator_bool = true ∧
      (σ'.objs d).ptr_.ptr = some a ∧ σ'.released a = σ.released a ∧ σ'.heap = σ.heap := by
  have hds : d ≠ s := by
    rintro rfl
    rw [hd] at hs
    exact Option.some_ne_none _ hs
  simp only [copy_assign, State.set_base, Function.update_noteq (Ne.symm hds), hs]
  refine ⟨_, rfl, ?_, ?_, rfl, rfl⟩
  · simp [indirect_value.operator_bool, hd]
  · simp [hd]

/-- Witness for C3: the engaged handle 0 (pointee 7 at address 0) assigned from
the empty handle 2 stays engaged and nothing is released. -/
theorem copy_assign_from_empty_keeps_pointee_witness :
    (exampleStateful.objs 0).operator_bool = true ∧
    (exampleStateful.objs 2).operator_bool = false ∧
    ∃ σ', copy_assign examplePolicies exampleStateful 0 2 = Result.returned σ' ∧
      (σ'.objs 0).operator_bool = true ∧ (σ'.objs 0).ptr_.ptr = some 0 ∧
      σ'.released 0 = exampleStateful.released 0 ∧ σ'.heap = exampleStateful.heap :=
  ⟨rfl, rfl, copy_assign_from_empty_keeps_pointee examplePolicies exampleStateful 0 2 0 rfl rfl⟩

/-- The copy constructor leaves in the new object the copy policy that its
storage held before the call, whatever the source is. -/
theorem ctor_copy_get_c (P : Policies T C D) (σ : State T C D) (self i : Nat) :
    ((ctor_copy P σ self i).state.objs self).get_c = (σ.objs self).get_c := by
  unfold ctor_copy
  simp only []
  split
  · split
    · rename_i h
      obtain ⟨H, -, rfl⟩ := call_copy_some h
      simp [Result.state, unique_ptr_move_assign_objs, indirect_value.get_c,
        indirect_value_base.get]
    · simp [Result.state, State.after_throwing_clone, indirect_value.get_c,
        indirect_value_base.get]
  · simp [Result.state, indirect_value.get_c, indirect_value_base.get]

/-- C4 (as the code behaves): copy-constructing into storage 3, whose content is
copy policy state 0, from the empty handle 2 with copy policy state 6 yields a
handle with policy state 0, not 6; from the engaged handle 0 with policy state
5 (a policy that clones) the constructor calls the policy in state 0, which
throws, so no pointee is produced although the policy of the source would
have produced one. -/
theorem ctor_copy_ignores_source_policy :
    (exampleStateful.objs 2).get_c = 6 ∧
    (ctor_copy examplePolicies exampleStateful 3 2).isReturned = true ∧
    ((ctor_copy examplePolicies exampleStateful 3 2).state.objs 3).get_c = 0 ∧
    (exampleStateful.objs 0).get_c = 5 ∧
    (examplePolicies.copy 5 0 exampleStateful.heap).isSome = true ∧
    (ctor_copy examplePolicies exampleStateful 3 0).isReturned = false ∧
    ((ctor_copy examplePolicies exampleStateful 3 0).state.objs 3).get_c = 0 := by
  refine ⟨rfl, rfl, rfl, rfl, rfl, rfl, rfl⟩

/-- C5 (counterexample): handle 0 owns the pointee at address 0 and handle 1 owns
another pointee; after `h0 = std::move(h1)` the source handle 1 is empty, it
does not own the former pointee of handle 0. -/
theorem move_assign_source_not_given_old_pointee :
    (0 : Nat) ≠ 1 ∧ (exampleStateful.objs 0).operator_arrow = some 0 ∧
    ((move_assign examplePolicies exampleStateful 0 1).objs 1).operator_arrow = none ∧
    ¬ (((move_assign examplePolicies exampleStateful 0 1).objs 1).operator_arrow
          = (exampleStateful.objs 0).operator_arrow ∧
        ((move_assign examplePolicies exampleStateful 0 1).objs 0).operator_arrow
          = (exampleStateful.objs 1).operator_arrow) := by
  refine ⟨by decide, rfl, rfl, ?_⟩
  rintro ⟨h, -⟩
  exact absurd h (by decide)

/-- C5 (amended): for distinct handles `self` and `src`, after
`self = std::move(src)` the source is empty and `self` holds the copy policy,
the pointer and the destroy policy that `src` held; the former pointee of
`self`, if any, has been passed once to the former destroy policy of `self`,
and nothing is released when `self` was empty. -/
theorem move_assign_transfers_and_releases (P : Policies T C D) (σ : State T C D)
    (self src : Nat) (hne : self ≠ src) :
    ((move_assign P σ self src).objs src).ptr_.ptr = none ∧
    ((move_assign P σ self src).objs self).ptr_ = (σ.objs src).ptr_ ∧
    ((move_assign P σ self src).objs self).base = (σ.objs src).base ∧
    (∀ a, (σ.objs self).ptr_.ptr = some a →
      (move_assign P σ self src).trace = σ.trace ++ [Event.destroy a] ∧
      (move_assign P σ self src).heap = P.destroy (σ.objs self).ptr_.del a σ.heap) ∧
    ((σ.objs self).ptr_.ptr = none →
      (move_assign P σ self src).trace = σ.trace ∧ (move_assign P σ self src).heap = σ.heap) := by
  have hne' : src ≠ self := Ne.symm hne
  refine ⟨?_, ?_, ?_, ?_, ?_⟩
  · simp [move_assign, exchange_nullptr, unique_ptr_move_assign_objs, unique_ptr_reset_objs,
      Function.update_noteq hne', Function.update_noteq hne]
  · simp [move_assign, exchange_nullptr, unique_ptr_move_assign_objs, unique_ptr_reset_objs,
      Function.update_noteq hne', Function.update_noteq hne]
  · simp [move_assign, exchange_nullptr, unique_ptr_move_assign_objs, unique_ptr_reset_objs,
      Function.update_noteq hne', Function.update_noteq hne]
  · intro a ha
    simp [move_assign, exchange_nullptr, unique_ptr_move_assign_trace, unique_ptr_reset_trace,
      unique_ptr_move_assign_heap, unique_ptr_reset_heap, unique_ptr_reset_objs,
      Function.update_noteq hne', Function.update_noteq hne, ha]
  · intro ha
    simp [move_assign, exchange_nullptr, unique_ptr_move_assign_trace, unique_ptr_reset_trace,
      unique_ptr_move_assign_heap, unique_ptr_reset_heap, unique_ptr_reset_objs,
      Function.update_noteq hne', Function.update_noteq hne, ha]

/-- Witness for C5 (amended): `h0 = std::move(h1)` with both engaged. -/
theorem move_assign_transfers_and_releases_witness :
    (0 : Nat) ≠ 1 ∧
    ((move_assign examplePolicies exampleStateful 0 1).objs 1).ptr_.ptr = none ∧
    ((move_assign examplePolicies exampleStateful 0 1).objs 0).ptr_ = ⟨some 1, 4⟩ ∧
    (move_assign examplePolicies exampleStateful 0 1).trace = [Event.destroy 0] :=
  ⟨by decide,
    (move_assign_transfers_and_releases examplePolicies exampleStateful 0 1 (by decide)).1,
    (move_assign_transfers_and_releases examplePolicies exampleStateful 0 1 (by decide)).2.1,
    ((move_assign_transfers_and_releases examplePolicies exampleStateful 0 1
      (by decide)).2.2.2.1 0 rfl).1⟩

/-- C6 (copy self-assignment): let the copy policy of `h` produce a deep copy (a
new address holding the value of the pointee) and let the destroy policy
touch only the object it is given.  In a state where the pointee of `h` lies in
the heap and has not been released, where no address has been released twice
and none beyond the heap, `h = h` returns with `h` in the same engagement
state and with the same pointee value; afterwards still no address has been
released more than once, and the pointee `h` owns has not been released. -/
theorem copy_self_assignment (P : Policies T C D) (σ : State T C D) (h : Nat)
    (hdel : ∀ d x H y, y ≠ x → (P.destroy d x H).read y = H.read y)
    (hclone : ∀ a, (σ.objs h).ptr_.ptr = some a →
      ∃ b H', P.copy (σ.objs h).get_c a σ.heap = some (some b, H') ∧ σ.heap.length ≤ b ∧
        H'.read b = σ.heap.read a)
    (hlive : ∀ a, (σ.objs h).ptr_.ptr = some a → a < σ.heap.length ∧ σ.released a = 0)
    (hfresh : ∀ x, σ.heap.length ≤ x → σ.released x = 0)
    (honce : ∀ x, σ.released x ≤ 1) :
    ∃ σ', copy_assign P σ h h = Result.returned σ' ∧
      (σ'.objs h).operator_bool = (σ.objs h).operator_bool ∧
      operator_star σ' h = operator_star σ h ∧
      (∀ x, σ'.released x ≤ 1) ∧
      (∀ b, (σ'.objs h).ptr_.ptr = some b → σ'.released b = 0) := by
  cases hp : (σ.objs h).ptr_.ptr with
  | none =>
    simp only [copy_assign, State.set_base_objs, Function.update_same, hp]
    refine ⟨_, rfl, ?_, ?_, ?_, ?_⟩
    · simp [indirect_value.operator_bool, hp]
    · simp [operator_star, hp]
    · intro x; exact honce x
    · intro b hb
      simp [hp] at hb
  | some a =>
    obtain ⟨b, H', hc, hb, hval⟩ := hclone a hp
    obtain ⟨hla, hra⟩ := hlive a hp
    have hba : b ≠ a := Nat.ne_of_gt (Nat.lt_of_lt_of_le hla hb)
    have hcall : call_copy P (σ.set_base h (σ.objs h).base) h a
        = some (some b, { (σ.set_base h (σ.objs h).base) with
            heap := H', trace := σ.trace ++ [Event.clone a] }) := by
      have hc' : P.copy (σ.objs h).base.get a σ.heap = some (some b, H') := hc
      simp [call_copy, indirect_value.get_c, hc']
    simp only [copy_assign, State.set_base_objs, Function.update_same, hp, hcall]
    refine ⟨_, rfl, ?_, ?_, ?_, ?_⟩
    · simp [indirect_value.operator_bool, unique_ptr_reset_objs, hp]
    · simp [operator_star, unique_ptr_reset_objs, unique_ptr_reset_heap, hp, hdel _ _ _ _ hba,
        hval]
    · intro x
      have hx := honce x
      simp only [State.released, unique_ptr_reset_trace, State.set_base_objs,
        Function.update_same, hp, List.count_append, count_destroy_single,
        count_destroy_clone] at hx ⊢
      by_cases hxa : x = a
      · subst hxa
        have : σ.trace.count (Event.destroy x) = 0 := hra
        simp [this]
      · simp [hxa, hx]
    · intro b' hb'
      simp [unique_ptr_reset_objs] at hb'
      subst hb'
      have h0 := hfresh b hb
      simp only [State.released, unique_ptr_reset_trace, State.set_base_objs,
        Function.update_same, hp, List.count_append, count_destroy_single,
        count_destroy_clone] at h0 ⊢
      simp [h0, hba]

/-- Witness for C6: `h0 = h0` for the handle owning the pointee 7, with the
default policies. -/
theorem copy_self_assignment_witness :
    (exampleDefault.objs 0).ptr_.ptr = some 0 ∧
    ∃ σ', copy_assign (defaultPolicies Nat) exampleDefault 0 0 = Result.returned σ' ∧
      (σ'.objs 0).operator_bool = (exampleDefault.objs 0).operator_bool ∧
      operator_star σ' 0 = operator_star exampleDefault 0 ∧
      (∀ x, σ'.released x ≤ 1) ∧
      (∀ b, (σ'.objs 0).ptr_.ptr = some b → σ'.released b = 0) :=
  ⟨rfl, copy_self_assignment (defaultPolicies Nat) exampleDefault 0
    (fun _ _ H _ hy => Heap.read_free_ne H hy)
    (fun a ha => by
      have h0 : a = 0 := (Option.some.inj ha).symm
      subst h0
      exact ⟨2, [some 7, some 9, some 7], rfl, Nat.le_refl 2, rfl⟩)
    (fun a ha => by
      have h0 : a = 0 := (Option.some.inj ha).symm
      subst h0
      exact ⟨by decide, rfl⟩)
    (fun _ _ => rfl) (fun _ => Nat.zero_le 1)⟩

/-- C7 (counterexample): handle 0 is engaged with copy policy state 5; handle 1
is engaged and its copy policy (state 0) throws.  `h0 = h1` throws and leaves
handle 0 engaged with its old pointee but with copy policy state 0: it is
neither unchanged nor empty. -/
theorem failed_clone_changes_policy :
    (exampleStateful.objs 1).operator_bool = true ∧
    examplePolicies.copy (exampleStateful.objs 1).get_c 1 exampleStateful.heap = none ∧
    (copy_assign examplePolicies exampleStateful 0 1).isReturned = false ∧
    (exampleStateful.objs 0).get_c = 5 ∧
    ((copy_assign examplePolicies exampleStateful 0 1).state.objs 0).get_c = 0 ∧
    ¬ ((copy_assign examplePolicies exampleStateful 0 1).state.objs 0 = exampleStateful.objs 0 ∨
        ((copy_assign examplePolicies exampleStateful 0 1).state.objs 0).operator_bool = false) := by
  refine ⟨rfl, rfl, rfl, rfl, rfl, ?_⟩
  decide

/-- C7 (amended): when the copy policy of an engaged source `s` throws on the
pointee of `s`, the copy assignment `d = s` throws; `d` then holds the copy
policy of `s` and keeps the pointer and destroy policy it had, every other
handle is as before, the heap is as before and no destroy policy has been
called. -/
theorem failed_clone_in_copy_assign (P : Policies T C D) (σ : State T C D) (d s : Nat) (a : Addr)
    (hs : (σ.objs s).ptr_.ptr = some a)
    (hthrow : P.copy (σ.objs s).get_c a σ.heap = none) :
    ∃ σ', copy_assign P σ d s = Result.threw σ' ∧
      (σ'.objs d).base = (σ.objs s).base ∧ (σ'.objs d).ptr_ = (σ.objs d).ptr_ ∧
      (∀ j, j ≠ d → σ'.objs j = σ.objs j) ∧ σ'.heap = σ.heap ∧
      (∀ x, σ'.released x = σ.released x) := by
  have hs1 : ((σ.set_base d (σ.objs s).base).objs s).ptr_.ptr = some a := by
    by_cases hds : s = d
    · subst hds; simp [hs]
    · simp [Function.update_noteq hds, hs]
  have hcall : call_copy P (σ.set_base d (σ.objs s).base) d a = none := by
    have hc' : P.copy (σ.objs s).base.get a σ.heap = none := hthrow
    simp [call_copy, indirect_value.get_c, hc']
  have hout : copy_assign P σ d s
      = Result.threw ((σ.set_base d (σ.objs s).base).after_throwing_clone a) := by
    simp only [copy_assign, hs1, hcall]
    split <;> rfl
  refine ⟨_, hout, ?_, ?_, ?_, rfl, ?_⟩
  · simp [State.after_throwing_clone]
  · simp [State.after_throwing_clone]
  · intro j hj
    simp [State.after_throwing_clone, Function.update_noteq hj]
  · intro x
    simp [State.released, State.after_throwing_clone, List.count_append, count_destroy_clone]

/-- Witness for C7 (amended): `h0 = h1` where the copy policy of handle 1 throws. -/
theorem failed_clone_in_copy_assign_witness :
    (exampleStateful.objs 1).ptr_.ptr = some 1 ∧
    examplePolicies.copy (exampleStateful.objs 1).get_c 1 exampleStateful.heap = none ∧
    ∃ σ', copy_assign examplePolicies exampleStateful 0 1 = Result.threw σ' ∧
      (σ'.objs 0).base = (exampleStateful.objs 1).base ∧
      (σ'.objs 0).ptr_ = (exampleStateful.objs 0).ptr_ ∧
      (∀ j, j ≠ 0 → σ'.objs j = exampleStateful.objs j) ∧ σ'.heap = exampleStateful.heap ∧
      (∀ x, σ'.released x = exampleStateful.released x) :=
  ⟨rfl, rfl, failed_clone_in_copy_assign examplePolicies exampleStateful 0 1 1 rfl rfl⟩

/-- C9 (swap exchanges states): after `swap(a, b)` handle `a` holds the copy
policy, the pointer and the destroy policy that `b` held and conversely, every
other handle, the heap and the trace are as before; so the boolean query and
the pointee value seen through `a` are those formerly seen through `b`, and
conversely. -/
theorem swap_exchanges_states (σ : State T C D) (a b : Nat) :
    (swap σ a b).objs a = σ.objs b ∧ (swap σ a b).objs b = σ.objs a ∧
    (∀ j, j ≠ a → j ≠ b → (swap σ a b).objs j = σ.objs j) ∧
    (swap σ a b).heap = σ.heap ∧ (swap σ a b).trace = σ.trace ∧
    ((swap σ a b).objs a).operator_bool = (σ.objs b).operator_bool ∧
    ((swap σ a b).objs b).operator_bool = (σ.objs a).operator_bool ∧
    operator_star (swap σ a b) a = operator_star σ b ∧
    operator_star (swap σ a b) b = operator_star σ a := by
  have ha : (swap σ a b).objs a = σ.objs b := by
    by_cases hab : a = b
    · subst hab; simp [swap, swap_ptr, swap_policy]
    · simp [swap, swap_ptr, swap_policy, Function.update_noteq hab,
        Function.update_noteq (Ne.symm hab)]
  have hb : (swap σ a b).objs b = σ.objs a := by
    by_cases hab : a = b
    · subst hab; simp [swap, swap_ptr, swap_policy]
    · simp [swap, swap_ptr, swap_policy, Function.update_noteq hab,
        Function.update_noteq (Ne.symm hab)]
  have hH : (swap σ a b).heap = σ.heap := rfl
  refine ⟨ha, hb, ?_, hH, rfl, by rw [ha], by rw [hb], ?_, ?_⟩
  · intro j hja hjb
    simp [swap, swap_ptr, swap_policy, Function.update_noteq hja, Function.update_noteq hjb]
  · simp only [operator_star, ha, hH]
  · simp only [operator_star, hb, hH]

/-- C10 (copy construction mirrors engagement, source not mutated): when the
copy policy called by the constructor on the pointee of the source `s` returns
a non-null pointer and leaves that pointee as it was, copy-constructing a
distinct object `self` from `s` returns with `self` engaged exactly when `s`
is; `s` afterwards has the same copy policy, pointer and destroy policy, and
the same pointee value, as before. -/
theorem ctor_copy_mirrors_engagement (P : Policies T C D) (σ : State T C D) (self s : Nat)
    (hne : self ≠ s)
    (hclone : ∀ a, (σ.objs s).ptr_.ptr = some a →
      ∃ b H', P.copy (σ.objs self).get_c a σ.heap = some (some b, H') ∧
        H'.read a = σ.heap.read a) :
    ∃ σ', ctor_copy P σ self s = Result.returned σ' ∧
      (σ'.objs self).operator_bool = (σ.objs s).operator_bool ∧
      σ'.objs s = σ.objs s ∧
      (σ'.objs s).operator_bool = (σ.objs s).operator_bool ∧
      operator_star σ' s = operator_star σ s := by
  have hne' : s ≠ self := Ne.symm hne
  cases hp : (σ.objs s).ptr_.ptr with
  | none =>
    simp only [ctor_copy, Function.update_noteq hne', hp]
    refine ⟨_, rfl, ?_, ?_, ?_, ?_⟩
    · simp [indirect_value.operator_bool, hp]
    · simp [Function.update_noteq hne']
    · simp [Function.update_noteq hne']
    · simp [operator_star, Function.update_noteq hne']
  | some a =>
    obtain ⟨b, H', hc, hval⟩ := hclone a hp
    have hc' : P.copy (σ.objs self).base.get a σ.heap = some (some b, H') := hc
    simp only [ctor_copy, Function.update_noteq hne', hp, call_copy, indirect_value.get_c,
      Function.update_same, indirect_value_base.get, hc']
    have hc2 : P.copy (σ.objs self).base.c_ a σ.heap = some (some b, H') := hc
    simp only [hc2]
    refine ⟨_, rfl, ?_, ?_, ?_, ?_⟩
    · simp [indirect_value.operator_bool, unique_ptr_move_assign_objs, hp]
    · simp [unique_ptr_move_assign_objs, Function.update_noteq hne']
    · simp [unique_ptr_move_assign_objs, Function.update_noteq hne']
    · simp [operator_star, unique_ptr_move_assign_objs, unique_ptr_move_assign_heap,
        Function.update_noteq hne', hp, hval]

/-- Witness for C10: copy construction into storage 3 from the engaged handle 0
and from the empty handle 2, with the default policies. -/
theorem ctor_copy_mirrors_engagement_witness :
    (3 : Nat) ≠ 0 ∧ (3 : Nat) ≠ 2 ∧
    (∃ σ', ctor_copy (defaultPolicies Nat) exampleDefault 3 0 = Result.returned σ' ∧
      (σ'.objs 3).operator_bool = true ∧ σ'.objs 0 = exampleDefault.objs 0 ∧
      operator_star σ' 0 = some 7) ∧
    (∃ σ', ctor_copy (defaultPolicies Nat) exampleDefault 3 2 = Result.returned σ' ∧
      (σ'.objs 3).operator_bool = false ∧ σ'.objs 2 = exampleDefault.objs 2) := by
  refine ⟨by decide, by decide, ?_, ?_⟩
  · obtain ⟨σ', h1, h2, h3, -, h5⟩ :=
      ctor_copy_mirrors_engagement (defaultPolicies Nat) exampleDefault 3 0 (by decide)
        (fun a ha => by
          have h0 : a = 0 := (Option.some.inj ha).symm
          subst h0
          exact ⟨2, [some 7, some 9, some 7], rfl, rfl⟩)
    exact ⟨σ', h1, h2, h3, h5⟩
  · obtain ⟨σ', h1, h2, h3, -, -⟩ :=
      ctor_copy_mirrors_engagement (defaultPolicies Nat) exampleDefault 3 2 (by decide)
        (fun a ha => by
          have : (none : Option Addr) = some a := ha
          cases this)
    exact ⟨σ', h1, h2, h3⟩

/-- C8 (no leak, no double free): with copy and destroy policies that behave as
`default_copy` and `std::default_delete`, for every program of handle
operations (default, in-place and raw-pointer construction, copy and move
construction, copy and move assignment, swap) that names only handles
constructed before, run from any storage over an empty heap and followed by
the destruction of every handle constructed, no pointee is alive at the end,
every pointee ever allocated has been passed to a destroy policy exactly once,
and no other address has. -/
theorem no_leak_no_double_free (P : Policies T C D) (o : Nat → indirect_value C D)
    (prog : List (Op T C D)) (hcopy : ∀ c, P.copy c = default_copy)
    (hdestroy : ∀ d, P.destroy d = default_delete) (hs : scopedProgram 0 prog = true) :
    (scope_exit P o prog).heap.liveCount = 0 ∧
    (∀ a, a < (scope_exit P o prog).heap.length → (scope_exit P o prog).released a = 1) ∧
    (∀ a, (scope_exit P o prog).heap.length ≤ a → (scope_exit P o prog).released a = 0) :=
  Inv.all_released
    (destroy_all_inv P hdestroy _ _ (run_inv P hcopy hdestroy prog 0 _ hs (inv_start o)))

/-- Witness for C8: the example program allocates seven pointees in all; at
scope exit none is alive and each has been released once. -/
theorem no_leak_no_double_free_witness :
    scopedProgram 0 exampleProgram = true ∧
    (scope_exit (defaultPolicies Nat) (State.blank (T := Nat) () ()).objs
      exampleProgram).heap.length = 7 ∧
    (scope_exit (defaultPolicies Nat) (State.blank (T := Nat) () ()).objs
      exampleProgram).heap.liveCount = 0 ∧
    (∀ a, a < (scope_exit (defaultPolicies Nat) (State.blank (T := Nat) () ()).objs
        exampleProgram).heap.length →
      (scope_exit (defaultPolicies Nat) (State.blank (T := Nat) () ()).objs
        exampleProgram).released a = 1) :=
  ⟨rfl, rfl,
    (no_leak_no_double_free (defaultPolicies Nat) (State.blank (T := Nat) () ()).objs
      exampleProgram (fun _ => rfl) (fun _ => rfl) rfl).1,
    (no_leak_no_double_free (defaultPolicies Nat) (State.blank (T := Nat) () ()).objs
      exampleProgram (fun _ => rfl) (fun _ => rfl) rfl).2.1⟩

/-- C12 (self-move-assignment): `h = std::move(h)` leaves `h` with the same
engagement state and the same owned pointee (and the same policies), leaves
every other handle and the heap as they were, and calls no destroy policy. -/
theorem self_move_assign_keeps_ownership (P : Policies T C D) (σ : State T C D) (h : Nat) :
    ((move_assign P σ h h).objs h).operator_bool = (σ.objs h).operator_bool ∧
    ((move_assign P σ h h).objs h).operator_arrow = (σ.objs h).operator_arrow ∧
    (∀ j, (move_assign P σ h h).objs j = σ.objs j) ∧
    (move_assign P σ h h).heap = σ.heap ∧
    (move_assign P σ h h).trace = σ.trace ∧
    (∀ x, (move_assign P σ h h).released x = σ.released x) := by
  have hobjs : ∀ j, (move_assign P σ h h).objs j = σ.objs j := by
    intro j
    simp only [move_assign, exchange_nullptr, unique_ptr_move_assign_objs,
      unique_ptr_reset_objs, State.set_ptr_objs, State.set_base_objs, Function.update_apply]
    split_ifs with hj
    · simp [hj]
    · rfl
  have htrace : (move_assign P σ h h).trace = σ.trace := by
    simp [move_assign, exchange_nullptr, unique_ptr_move_assign_trace, unique_ptr_reset_trace,
      unique_ptr_reset_objs]
  refine ⟨by rw [hobjs], by rw [hobjs], hobjs, ?_, htrace, ?_⟩
  · simp [move_assign, exchange_nullptr, unique_ptr_move_assign_heap, unique_ptr_reset_heap,
      unique_ptr_reset_objs]
  · intro x
    simp only [State.released, htrace]

/-- C13 (in-place round trip): when `T(args...)` succeeds with value `v`, the
in-place constructor returns with the handle engaged, dereferencing it yields
that same value, and the handle holds the default-constructed copy and destroy
policies; no destroy policy is called. -/
theorem in_place_round_trip {A : Type} (P : Policies T C D) (mk : A → Option T)
    (σ : State T C D) (self : Nat) (args : A) (v : T) (hmk : mk args = some v) :
    ∃ σ', ctor_in_place P mk σ self args = Result.returned σ' ∧
      (σ'.objs self).operator_bool = true ∧
      operator_star σ' self = mk args ∧
      (σ'.objs self).get_c = P.defaultC ∧
      (σ'.objs self).ptr_.del = P.defaultD ∧
      σ'.trace = σ.trace := by
  simp only [ctor_in_place, hmk]
  refine ⟨_, rfl, ?_, ?_, ?_, ?_, ?_⟩
  · simp [indirect_value.operator_bool, unique_ptr_move_assign_objs]
  · have hnew := Heap.read_alloc_new σ.heap v
    simp [operator_star, unique_ptr_move_assign_objs, unique_ptr_move_assign_heap, ctor_default,
      hnew]
  · simp [indirect_value.get_c, indirect_value_base.get, unique_ptr_move_assign_objs,
      ctor_default]
  · simp [unique_ptr_move_assign_objs]
  · simp [unique_ptr_move_assign_trace, ctor_default]

/-- Witness for C13: `indirect_value(std::in_place, 4)` for a pointee type whose
constructor doubles its argument, built in storage 3. -/
theorem in_place_round_trip_witness :
    (fun n : Nat => some (2 * n)) 4 = some 8 ∧
    ∃ σ', ctor_in_place examplePolicies (fun n : Nat => some (2 * n)) exampleStateful 3 4
        = Result.returned σ' ∧
      (σ'.objs 3).operator_bool = true ∧ operator_star σ' 3 = some 8 ∧
      (σ'.objs 3).get_c = 1 ∧ (σ'.objs 3).ptr_.del = 1 := by
  obtain ⟨σ', h1, h2, h3, h4, h5, -⟩ :=
    in_place_round_trip examplePolicies (fun n : Nat => some (2 * n)) exampleStateful 3 4 8 rfl
  exact ⟨rfl, σ', h1, h2, h3, h4, h5⟩

/-- C14 (construction from a raw owning pointer): the handle constructed from
`(p, c, d)` stores `c` as copy policy, `p` as pointer and `d` as destroy
policy; its boolean query is true exactly when `p` is not null, its pointer is
`p`, dereferencing reads the object at `p`, and neither the heap nor any other
handle is touched. -/
theorem ctor_ptr_takes_pointer_and_policies (σ : State T C D) (self : Nat) (p : Option Addr)
    (c : C) (d : D) :
    ((ctor_ptr σ self p c d).objs self).operator_bool = p.isSome ∧
    ((ctor_ptr σ self p c d).objs self).operator_arrow = p ∧
    (∀ a, p = some a → operator_star (ctor_ptr σ self p c d) self = σ.heap.read a) ∧
    (p = none → ((ctor_ptr σ self p c d).objs self).operator_bool = false) ∧
    ((ctor_ptr σ self p c d).objs self).get_c = c ∧
    ((ctor_ptr σ self p c d).objs self).ptr_.del = d ∧
    (ctor_ptr σ self p c d).heap = σ.heap ∧ (ctor_ptr σ self p c d).trace = σ.trace ∧
    (∀ j, j ≠ self → (ctor_ptr σ self p c d).objs j = σ.objs j) := by
  refine ⟨?_, ?_, ?_, ?_, ?_, ?_, rfl, rfl, ?_⟩
  · simp [ctor_ptr, indirect_value.operator_bool]
  · simp [ctor_ptr, indirect_value.operator_arrow]
  · intro a ha
    subst ha
    simp [ctor_ptr, operator_star]
  · intro hp
    subst hp
    simp [ctor_ptr, indirect_value.operator_bool]
  · simp [ctor_ptr, indirect_value.get_c, indirect_value_base.get]
  · simp [ctor_ptr]
  · intro j hj
    simp [ctor_ptr, Function.update_noteq hj]

/-- Witness for C14: handles built in storage 3 from the pointer to the object
at address 1 and from a null pointer, with policy states 8 and 9. -/
theorem ctor_ptr_takes_pointer_and_policies_witness :
    ((ctor_ptr exampleStateful 3 (some 1) 8 9).objs 3).operator_bool = true ∧
    operator_star (ctor_ptr exampleStateful 3 (some 1) 8 9) 3 = some 9 ∧
    ((ctor_ptr exampleStateful 3 none 8 9).objs 3).operator_bool = false ∧
    ((ctor_ptr exampleStateful 3 none 8 9).objs 3).get_c = 8 ∧
    ((ctor_ptr exampleStateful 3 none 8 9).objs 3).ptr_.del = 9 :=
  ⟨(ctor_ptr_takes_pointer_and_policies exampleStateful 3 (some 1) 8 9).1,
    (ctor_ptr_takes_pointer_and_policies exampleStateful 3 (some 1) 8 9).2.2.1 1 rfl,
    (ctor_ptr_takes_pointer_and_policies exampleStateful 3 none 8 9).2.2.2.1 rfl,
    (ctor_ptr_takes_pointer_and_policies exampleStateful 3 none 8 9).2.2.2.2.1,
    (ctor_ptr_takes_pointer_and_policies exampleStateful 3 none 8 9).2.2.2.2.2.1⟩

/-- C15 (the two policy-storage strategies agree): a storage base constructed
from `c` returns `c` from the mutable and from the const `get()`, under the
data-member strategy and under the private-inheritance strategy alike; after a
write of `c2` through the mutable `get()` both return `c2`. -/
theorem policy_storage_strategies_agree (c c2 : C) :
    (indirect_value_base.ctor c).get = c ∧
    (indirect_value_base.ctor c).get_const = c ∧
    (indirect_value_base_ebo.ctor c).get = c ∧
    (indirect_value_base_ebo.ctor c).get_const = c ∧
    ((indirect_value_base.ctor c).assign_through_get c2).get = c2 ∧
    ((indirect_value_base.ctor c).assign_through_get c2).get_const = c2 ∧
    ((indirect_value_base_ebo.ctor c).assign_through_get c2).get = c2 ∧
    ((indirect_value_base_ebo.ctor c).assign_through_get c2).get_const = c2 ∧
    (∀ (m : indirect_value_base C) (e : indirect_value_base_ebo C), m.get = e.get →
      m.get_const = e.get_const ∧
      (m.assign_through_get c2).get = (e.assign_through_get c2).get) := by
  refine ⟨rfl, rfl, rfl, rfl, rfl, rfl, rfl, rfl, ?_⟩
  intro m e hme
  exact ⟨hme, rfl⟩

/-- Witness for C15: a data-member base and a private-inheritance base both
holding the policy value 5, then overwritten with 6. -/
theorem policy_storage_strategies_agree_witness :
    (indirect_value_base.ctor 5).get = (indirect_value_base_ebo.ctor 5).get ∧
    (indirect_value_base.ctor 5).get_const = (indirect_value_base_ebo.ctor 5).get_const ∧
    ((indirect_value_base.ctor 5).assign_through_get 6).get = 6 ∧
    ((indirect_value_base_ebo.ctor 5).assign_through_get 6).get = 6 :=
  ⟨rfl,
    ((policy_storage_strategies_agree 5 6).2.2.2.2.2.2.2.2 (indirect_value_base.ctor 5)
      (indirect_value_base_ebo.ctor 5) rfl).1,
    (policy_storage_strategies_agree 5 6).2.2.2.2.1,
    (policy_storage_strategies_agree 5 6).2.2.2.2.2.2.1⟩

/-- C16 (default-empty): a default-constructed handle answers false to the
boolean query, and destroying it calls no destroy policy: the destructor
leaves the heap and the trace as they were. -/
theorem default_constructed_is_empty (P : Policies T C D) (σ : State T C D) (self : Nat) :
    ((ctor_default P σ self).objs self).operator_bool = false ∧
    (dtor P (ctor_default P σ self) self).trace = σ.trace ∧
    (dtor P (ctor_default P σ self) self).heap = σ.heap ∧
    (∀ x, (dtor P (ctor_default P σ self) self).released x = σ.released x) := by
  have hp : ((ctor_default P σ self).objs self).ptr_.ptr = none := by simp [ctor_default]
  have hd : dtor P (ctor_default P σ self) self = ctor_default P σ self := by
    simp only [dtor, hp]
  refine ⟨?_, ?_, ?_, ?_⟩
  · simp [indirect_value.operator_bool, hp]
  · rw [hd]; rfl
  · rw [hd]; rfl
  · intro x
    rw [hd]; rfl

/-- Move construction of an object from itself: the exchange acts on the one
`ptr_`, which ends null; the former pointee is not passed to the destroy
policy and the heap is as before. -/
theorem ctor_move_same_object (P : Policies T C D) (σ : State T C D) (h : Nat) :
    ((ctor_move P σ h h).objs h).ptr_.ptr = none ∧ (ctor_move P σ h h).heap = σ.heap ∧
    (ctor_move P σ h h).trace = σ.trace := by
  refine ⟨?_, ?_, ?_⟩
  · simp [ctor_move, exchange_nullptr_into, unique_ptr_reset_objs]
  · simp [ctor_move, exchange_nullptr_into, unique_ptr_reset_heap]
  · simp [ctor_move, exchange_nullptr_into, unique_ptr_reset_trace]

/-- C17 (move operations never clone): move construction and move assignment
add no call of the copy policy to the trace and allocate nothing: move
construction leaves the heap and the trace as they were, and move assignment
changes the heap at most by the destroy policy applied to the former pointee
of the destination.  The pointer held by the destination afterwards is the
pointer the source held before: for move construction of an object from
another one, and for move assignment between any two handles, also from a
handle to itself. -/
theorem move_never_clones (P : Policies T C D) (σ : State T C D) (dst src : Nat) :
    ((∀ a, (ctor_move P σ dst src).trace.count (Event.clone a) = σ.trace.count (Event.clone a)) ∧
      (ctor_move P σ dst src).trace = σ.trace ∧
      (ctor_move P σ dst src).heap = σ.heap ∧
      (dst ≠ src → ((ctor_move P σ dst src).objs dst).ptr_.ptr = (σ.objs src).ptr_.ptr)) ∧
    ((∀ a, (move_assign P σ dst src).trace.count (Event.clone a)
        = σ.trace.count (Event.clone a)) ∧
      ((move_assign P σ dst src).heap = σ.heap ∨
        ∃ a, (σ.objs dst).ptr_.ptr = some a ∧
          (move_assign P σ dst src).heap = P.destroy (σ.objs dst).ptr_.del a σ.heap) ∧
      ((move_assign P σ dst src).objs dst).ptr_.ptr = (σ.objs src).ptr_.ptr) := by
  have hct : (ctor_move P σ dst src).trace = σ.trace := by
    simp [ctor_move, exchange_nullptr_into, unique_ptr_reset_trace]
  refine ⟨⟨fun a => by rw [hct], hct, ?_, ?_⟩, ?_, ?_, ?_⟩
  · simp [ctor_move, exchange_nullptr_into, unique_ptr_reset_heap]
  · intro hds
    simp [ctor_move, exchange_nullptr_into, unique_ptr_reset_objs, Function.update_noteq hds,
      Function.update_noteq (Ne.symm hds)]
  · intro a
    by_cases h : src = dst
    · subst h
      simp [move_assign, exchange_nullptr, unique_ptr_move_assign_trace, unique_ptr_reset_trace,
        unique_ptr_reset_objs]
    · have h2 : dst ≠ src := Ne.symm h
      cases hq : (σ.objs dst).ptr_.ptr <;>
      simp [move_assign, exchange_nullptr, unique_ptr_move_assign_trace, unique_ptr_reset_trace,
        unique_ptr_reset_objs, Function.update_noteq h, Function.update_noteq h2, hq,
        List.count_append, List.count_cons]
  · by_cases h : src = dst
    · subst h
      left
      simp [move_assign, exchange_nullptr, unique_ptr_move_assign_heap, unique_ptr_reset_heap,
        unique_ptr_reset_objs]
    · have h2 : dst ≠ src := Ne.symm h
      cases hq : (σ.objs dst).ptr_.ptr with
      | none =>
        left
        simp [move_assign, exchange_nullptr, unique_ptr_move_assign_heap, unique_ptr_reset_heap,
          unique_ptr_reset_objs, Function.update_noteq h, Function.update_noteq h2, hq]
      | some b =>
        right
        refine ⟨b, rfl, ?_⟩
        simp [move_assign, exchange_nullptr, unique_ptr_move_assign_heap, unique_ptr_reset_heap,
          unique_ptr_reset_objs, Function.update_noteq h, Function.update_noteq h2, hq]
  · by_cases h : src = dst
    · subst h
      simp [move_assign, exchange_nullptr, unique_ptr_move_assign_objs, unique_ptr_reset_objs]
    · simp [move_assign, exchange_nullptr, unique_ptr_move_assign_objs, unique_ptr_reset_objs,
        Function.update_noteq h]

/-- Witness for C17: handle 0 (pointee at address 0) moved into fresh storage 3,
and move-assigned to the engaged handle 1, whose own pointee is released. -/
theorem move_never_clones_witness :
    (3 : Nat) ≠ 0 ∧
    (ctor_move examplePolicies exampleStateful 3 0).trace = exampleStateful.trace ∧
    (ctor_move examplePolicies exampleStateful 3 0).heap = exampleStateful.heap ∧
    ((ctor_move examplePolicies exampleStateful 3 0).objs 3).ptr_.ptr = some 0 ∧
    (∀ a, (move_assign examplePolicies exampleStateful 1 0).trace.count (Event.clone a)
      = exampleStateful.trace.count (Event.clone a)) ∧
    ((move_assign examplePolicies exampleStateful 1 0).objs 1).ptr_.ptr = some 0 :=
  ⟨by decide,
    (move_never_clones examplePolicies exampleStateful 3 0).1.2.1,
    (move_never_clones examplePolicies exampleStateful 3 0).1.2.2.1,
    (move_never_clones examplePolicies exampleStateful 3 0).1.2.2.2 (by decide),
    (move_never_clones examplePolicies exampleStateful 1 0).2.1,
    (move_never_clones examplePolicies exampleStateful 1 0).2.2.2⟩

/-- C18 (swap is an involution and symmetric): `swap(a, b)` performed twice
restores the whole state, hence both handles' copy policy, engagement and
owned pointee; `swap(a, b)` and `swap(b, a)` reach the same state; a swap
leaves the heap and the trace as they were, so it calls neither a destroy
policy nor a copy policy. -/
theorem swap_involutive_symmetric (σ : State T C D) (a b : Nat) :
    swap (swap σ a b) a b = σ ∧ swap σ a b = swap σ b a ∧
    (swap σ a b).heap = σ.heap ∧ (swap σ a b).trace = σ.trace ∧
    (∀ x, (swap σ a b).released x = σ.released x) ∧
    (∀ x, (swap σ a b).trace.count (Event.clone x) = σ.trace.count (Event.clone x)) := by
  refine ⟨?_, ?_, rfl, rfl, fun _ => rfl, fun _ => rfl⟩
  · refine State.eq_of_fields rfl (fun i => ?_) rfl
    simp only [swap_objs]
    by_cases hib : i = b
    · subst hib
      by_cases hia : i = a
      · subst hia; simp
      · simp [hia, Ne.symm hia]
    · by_cases hia : i = a
      · subst hia
        simp [hib, Ne.symm hib]
      · simp [hib, hia]
  · refine State.eq_of_fields rfl (fun i => ?_) rfl
    simp only [swap_objs]
    by_cases hib : i = b
    · subst hib
      by_cases hia : i = a
      · subst hia; simp
      · simp [hia]
    · by_cases hia : i = a
      · subst hia
        simp [hib]
      · simp [hib, hia]

/-- C19 (a copy does not inherit the destroy policy of the source): let `s` be
engaged, with any destroy policy.  When the clone succeeds, the handle
copy-constructed from `s` holds the destroy policy `D{}`; so does a
destination that was empty before `d = s`; a destination that was engaged
before `d = s` keeps the destroy policy it had. -/
theorem copy_does_not_take_destroy_policy (P : Policies T C D) (σ : State T C D) (self s d : Nat)
    (a : Addr) (hs : (σ.objs s).ptr_.ptr = some a) :
    (self ≠ s → (∃ p H, P.copy (σ.objs self).get_c a σ.heap = some (p, H)) →
      ∃ σ', ctor_copy P σ self s = Result.returned σ' ∧ (σ'.objs self).ptr_.del = P.defaultD) ∧
    ((∃ p H, P.copy (σ.objs s).get_c a σ.heap = some (p, H)) →
      ∃ σ', copy_assign P σ d s = Result.returned σ' ∧
        ((σ.objs d).ptr_.ptr = none → (σ'.objs d).ptr_.del = P.defaultD) ∧
        ((σ.objs d).ptr_.ptr ≠ none → (σ'.objs d).ptr_.del = (σ.objs d).ptr_.del)) := by
  constructor
  · rintro hne ⟨p, H, hc⟩
    have hne2 : s ≠ self := Ne.symm hne
    have hc1 : P.copy (σ.objs self).base.c_ a σ.heap = some (p, H) := hc
    simp only [ctor_copy, Function.update_noteq hne2, hs, call_copy, indirect_value.get_c,
      Function.update_same, indirect_value_base.get, hc1]
    refine ⟨_, rfl, ?_⟩
    simp [unique_ptr_move_assign_objs]
  · rintro ⟨p, H, hc⟩
    have hs1 : ((σ.set_base d (σ.objs s).base).objs s).ptr_.ptr = some a := by
      by_cases hds : s = d
      · subst hds; simp [hs]
      · simp [Function.update_noteq hds, hs]
    have hc1 : P.copy (σ.objs s).base.get a σ.heap = some (p, H) := hc
    have hcall : call_copy P (σ.set_base d (σ.objs s).base) d a
        = some (p, { (σ.set_base d (σ.objs s).base) with
            heap := H, trace := σ.trace ++ [Event.clone a] }) := by
      simp [call_copy, indirect_value.get_c, hc1]
    simp only [copy_assign, hs1, hcall]
    cases hq : (σ.objs d).ptr_.ptr with
    | none =>
      simp only [State.set_base_objs, Function.update_same, hq]
      refine ⟨_, rfl, ?_, ?_⟩
      · intro _
        simp [unique_ptr_move_assign_objs]
      · intro h
        exact absurd rfl h
    | some b =>
      simp only [State.set_base_objs, Function.update_same, hq]
      refine ⟨_, rfl, ?_, ?_⟩
      · intro h
        cases h
      · intro _
        simp [unique_ptr_reset_objs]

/-- Witness for C19: handle 0 is engaged with destroy policy state 3; the
copy built in storage 4 (whose content reads as copy policy state 7) and the
formerly empty handle 2 after `h2 = h0` hold the default destroy policy state
1, and the engaged handle 1 after `h1 = h0` keeps its destroy policy state 4. -/
theorem copy_does_not_take_destroy_policy_witness :
    (exampleStateful.objs 0).ptr_ = ⟨some 0, 3⟩ ∧
    (∃ σ', ctor_copy examplePolicies
        (ctor_ptr exampleStateful 4 none 7 0) 4 0 = Result.returned σ' ∧
      (σ'.objs 4).ptr_.del = 1) ∧
    (∃ σ', copy_assign examplePolicies exampleStateful 2 0 = Result.returned σ' ∧
      (σ'.objs 2).ptr_.del = 1) ∧
    (∃ σ', copy_assign examplePolicies exampleStateful 1 0 = Result.returned σ' ∧
      (σ'.objs 1).ptr_.del = 4) := by
  refine ⟨rfl, ?_, ?_, ?_⟩
  · exact (copy_does_not_take_destroy_policy examplePolicies
      (ctor_ptr exampleStateful 4 none 7 0) 4 0 0 0 rfl).1 (by decide)
      ⟨some 2, [some 7, some 9, some 7], rfl⟩
  · obtain ⟨σ', h1, h2, -⟩ :=
      (copy_does_not_take_destroy_policy examplePolicies exampleStateful 0 0 2 0 rfl).2
        ⟨some 2, [some 7, some 9, some 7], rfl⟩
    exact ⟨σ', h1, h2 rfl⟩
  · obtain ⟨σ', h1, -, h3⟩ :=
      (copy_does_not_take_destroy_policy examplePolicies exampleStateful 0 0 1 0 rfl).2
        ⟨some 2, [some 7, some 9, some 7], rfl⟩
    exact ⟨σ', h1, h3 (by decide)⟩

end claims

end isocpp_p1950
